import Mathlib

/-! w3bscrow: battle sequencer (`src/main.js`) and offer-lifecycle client
(`src/frontend/app.js`)

Shallow embedding of the two browser modules.

Modelling conventions
* JavaScript numbers are binary64 values, held as the rationals they denote.  A
  product or quotient is the exact one rounded by `fl` (round to nearest, ties to
  even): `jsMul`, `jsDiv`; a decimal literal such as `0.8` is `fl 0.8`.  Sums and
  differences are exact: the health points, damages and heal amounts they are applied
  to are integers far below `2 ^ 53`.  `Math.round` is `⌊x + 1/2⌋` (ties go toward
  `+∞`), `Math.max` / `Math.min` are `max` / `min`.  The values `NaN`, `±Infinity`
  are outside the model (division by `0` never occurs under the hypotheses used
  below).
* Mutation of the module-level `state` object is explicit state passing.
* An `async` handler is run to completion as one function: its `await`s are message
  and timer delays or requests to the ledger, and the steps of two handlers are not
  interleaved (the battle's move and item listeners drop clicks while `state.busy`
  is set).  `Math.random()` is an explicit argument `r`.
* DOM rendering (text, class lists, timers) is not part of the state; the toasts and
  the content of the offers list are kept as outputs of the client's handlers.
-/

namespace W3bscrow

namespace Battle

/-- The `items` record of a fighter. -/
structure Items where
  superPotion : ℤ
  potion : ℤ
  deriving DecidableEq

/-- A fighter record of `state` (`def` is spelled `def_`). -/
structure Fighter where
  name : String
  maxHp : ℚ
  hp : ℚ
  baseAtk : ℚ
  baseDef : ℚ
  atk : ℚ
  def_ : ℚ
  items : Items
  deriving DecidableEq

/-- The module-level `state` object. -/
structure State where
  busy : Bool
  player : Fighter
  enemy : Fighter
  deriving DecidableEq

/-- The literal `state` of `main.js` (lines 20-48). -/
def state : State :=
  { busy := false
    player :=
      { name := "Justino Il’ Banino", maxHp := 80, hp := 80, baseAtk := 20, baseDef := 15,
        atk := 20, def_ := 15, items := { superPotion := 1, potion := 1 } }
    enemy :=
      { name := "Brandogno Il’ Rugonononono", maxHp := 50, hp := 50, baseAtk := 15,
        baseDef := 10, atk := 15, def_ := 10, items := { superPotion := 1, potion := 1 } } }

/-- The two stat keys a debuff can name. -/
inductive StatKey
  | atk
  | def_
  deriving DecidableEq

/-- An entry of the `moves` table: a damage move or a debuff move. -/
inductive Move
  | damage (name : String) (baseDamage : ℚ)
  | debuff (name : String) (targetStat : StatKey)
  deriving DecidableEq

/-- Keys of the `moves` table. -/
inductive MoveKey
  | chop
  | blast
  | rug
  | beef
  deriving DecidableEq

/-- The `moves` table. -/
def moves : MoveKey → Move
  | .chop => .debuff "Chop It Off" .atk
  | .blast => .damage "Banana Blast" 25
  | .rug => .damage "Rug" 15
  | .beef => .debuff "Beef with people who actually do stuff for the community" .def_

/-- Keys of the `itemData` table. -/
inductive ItemKey
  | superPotion
  | potion
  deriving DecidableEq

/-- The `heal` column of `itemData`. -/
def itemData : ItemKey → ℚ
  | .superPotion => 50
  | .potion => 10

/-- Read `fighter.items[itemKey]`. -/
def Items.get (i : Items) : ItemKey → ℤ
  | .superPotion => i.superPotion
  | .potion => i.potion

/-- Write `fighter.items[itemKey] = v`. -/
def Items.set (i : Items) (k : ItemKey) (v : ℤ) : Items :=
  match k with
  | .superPotion => { i with superPotion := v }
  | .potion => { i with potion := v }

/-- Read `fighter[statKey]`. -/
def Fighter.stat (f : Fighter) : StatKey → ℚ
  | .atk => f.atk
  | .def_ => f.def_

/-- Write `fighter[statKey] = v`. -/
def Fighter.setStat (f : Fighter) (k : StatKey) (v : ℚ) : Fighter :=
  match k with
  | .atk => { f with atk := v }
  | .def_ => { f with def_ := v }

/-- The base value a stat key refers to (`statKey === "atk" ? baseAtk : baseDef`). -/
def Fighter.base (f : Fighter) : StatKey → ℚ
  | .atk => f.baseAtk
  | .def_ => f.baseDef

/-- JavaScript `Math.round`: nearest integer, ties toward `+∞`. -/
def mathRound (x : ℚ) : ℤ := ⌊x + 1 / 2⌋

/-- Source `resetStats` (lines 141-147). -/
def resetStats (fighter : Fighter) : Fighter :=
  { fighter with
    hp := fighter.maxHp
    atk := fighter.baseAtk
    def_ := fighter.baseDef
    items := { superPotion := 1, potion := 1 } }

/-- Rounding of a rational to the nearest integer, ties to the even one. -/
def roundHalfEven (x : ℚ) : ℤ :=
  if x - ⌊x⌋ < 1 / 2 then ⌊x⌋
  else if 1 / 2 < x - ⌊x⌋ then ⌊x⌋ + 1
  else if ⌊x⌋ % 2 = 0 then ⌊x⌋ else ⌊x⌋ + 1

/-- Exponent of the unit in the last place of the binary64 numbers around `x`: 52 below
the binary exponent of `x`, and `-1074` in the subnormal range. -/
def ulpExponent (x : ℚ) : ℤ := max (Int.log 2 |x| - 52) (-1074)

/-- The binary64 number nearest to `x`, ties to the even significand (the rounding of
every JavaScript arithmetic result); overflow to `±Infinity` is not modelled. -/
def fl (x : ℚ) : ℚ := roundHalfEven (x / 2 ^ ulpExponent x) * 2 ^ ulpExponent x

/-- JavaScript `x * y` on numbers. -/
def jsMul (x y : ℚ) : ℚ := fl (x * y)

/-- JavaScript `x / y` on numbers, for `y ≠ 0`. -/
def jsDiv (x y : ℚ) : ℚ := fl (x / y)

/-- Source `clampStat` (lines 149-152). -/
def clampStat (fighter : Fighter) (statKey : StatKey) : Fighter :=
  fighter.setStat statKey (max (jsMul (fighter.base statKey) (fl 0.2)) (fighter.stat statKey))

/-- Source `applyDebuff` (lines 154-157). -/
def applyDebuff (fighter : Fighter) (statKey : StatKey) : Fighter :=
  clampStat (fighter.setStat statKey (jsMul (fighter.stat statKey) (fl 0.8))) statKey

/-- Source `calculateDamage` (lines 159-162); `baseDamage` is `move.baseDamage`. -/
def calculateDamage (baseDamage : ℚ) (attacker defender : Fighter) : ℤ :=
  max 1 (mathRound (jsMul baseDamage (jsDiv attacker.atk defender.def_)))

/-- Source `applyDamage` (lines 164-166). -/
def applyDamage (defender : Fighter) (damage : ℤ) : Fighter :=
  { defender with hp := max 0 (defender.hp - damage) }

/-- Source `endBattle` (lines 182-189): sets the lock. -/
def endBattle (s : State) : State := { s with busy := true }

/-- Source `checkEnd` (lines 168-180): the state it leaves and the value it returns. -/
def checkEnd (s : State) : State × Bool :=
  if s.enemy.hp = 0 then (endBattle s, true)
  else if s.player.hp = 0 then (endBattle s, true)
  else (s, false)

/-- Source `healTarget` (lines 206-210): the updated fighter and the returned amount. -/
def healTarget (fighter : Fighter) (amount : ℚ) : Fighter × ℚ :=
  let before := fighter.hp
  let fighter1 := { fighter with hp := min fighter.maxHp (fighter.hp + amount) }
  (fighter1, fighter1.hp - before)

/-- Source `enemyTurn` (lines 266-315); `r` is the value `Math.random()` returns and `15` is
`moves.rug.baseDamage`. -/
def enemyTurn (r : ℚ) (s : State) : State :=
  let enemy := s.enemy
  let player := s.player
  if enemy.hp ≤ 20 ∧ enemy.items.superPotion > 0 then
    let enemy1 := { enemy with items := { enemy.items with superPotion := enemy.items.superPotion - 1 } }
    let enemy2 := (healTarget enemy1 (itemData .superPotion)).1
    (checkEnd { s with enemy := enemy2 }).1
  else if enemy.hp ≤ 10 ∧ enemy.items.potion > 0 then
    let enemy1 := { enemy with items := { enemy.items with potion := enemy.items.potion - 1 } }
    let enemy2 := (healTarget enemy1 (itemData .potion)).1
    (checkEnd { s with enemy := enemy2 }).1
  else
    let shouldDebuff : Bool :=
      decide (player.def_ > jsMul player.baseDef (fl 0.5)) && decide (r < fl 0.3)
    if shouldDebuff then
      (checkEnd { s with player := applyDebuff player .def_ }).1
    else
      let damage := calculateDamage 15 enemy player
      (checkEnd { s with player := applyDamage player damage }).1

/-- The part of the two player handlers after the action: `checkEnd`, the opponent
turn when the battle goes on, then `state.busy = false` (lines 232-239, 256-263). -/
def finishTurn (r : ℚ) (s : State) : State :=
  let (s1, ended) := checkEnd s
  let s2 := if ended then s1 else enemyTurn r s1
  { s2 with busy := false }

/-- Source `handlePlayerMove` (lines 212-240). -/
def handlePlayerMove (moveKey : MoveKey) (r : ℚ) (s : State) : State :=
  let s1 := { s with busy := true }
  match moves moveKey with
  | .damage _ baseDamage =>
    let damage := calculateDamage baseDamage s1.player s1.enemy
    finishTurn r { s1 with enemy := applyDamage s1.enemy damage }
  | .debuff _ targetStat =>
    finishTurn r { s1 with enemy := applyDebuff s1.enemy targetStat }

/-- Source `handlePlayerItem` (lines 242-264). -/
def handlePlayerItem (itemKey : ItemKey) (r : ℚ) (s : State) : State :=
  if s.player.items.get itemKey = 0 then s
  else
    let s1 := { s with busy := true }
    let player1 :=
      { s1.player with items := s1.player.items.set itemKey (s1.player.items.get itemKey - 1) }
    let player2 := (healTarget player1 (itemData itemKey)).1
    finishTurn r { s1 with player := player2 }

/-- Source `resetBattle` (lines 317-325). -/
def resetBattle (s : State) : State :=
  { busy := false, player := resetStats s.player, enemy := resetStats s.enemy }

/-- What a user can trigger: a move button, an item button, or the play button. -/
inductive Click
  | move (moveKey : MoveKey)
  | item (itemKey : ItemKey)
  | play
  deriving DecidableEq

/-- The click listeners (lines 327-377): move and item clicks are dropped while
`state.busy` is set, the play button runs `resetBattle`. -/
def onClick (c : Click) (r : ℚ) (s : State) : State :=
  match c with
  | .move moveKey => if s.busy then s else handlePlayerMove moveKey r s
  | .item itemKey => if s.busy then s else handlePlayerItem itemKey r s
  | .play => resetBattle s

/-- States reachable from the reset state by clicks, for any random draws. -/
inductive Reachable : State → Prop
  | reset : Reachable (resetBattle state)
  | click (c : Click) (r : ℚ) (s : State) : Reachable s → Reachable (onClick c r s)

/-- Result of `n` successive calls of `applyDebuff` on the same stat. -/
def applyDebuffTimes (n : ℕ) (fighter : Fighter) (statKey : StatKey) : Fighter :=
  (fun f => applyDebuff f statKey)^[n] fighter

/-- Spec reading of "rounding to the nearest integer, ties rounded up": `n` is the
value of that rounding at `q`. -/
def IsNearestTiesUp (q : ℚ) (n : ℤ) : Prop := (n : ℚ) - 1 / 2 ≤ q ∧ q < (n : ℚ) + 1 / 2

/-- The fields of a fighter that no function assigns. -/
def Fighter.consts (f : Fighter) : String × ℚ × ℚ × ℚ := (f.name, f.maxHp, f.baseAtk, f.baseDef)

/-- The never-assigned fields of both fighters. -/
def State.consts (s : State) : (String × ℚ × ℚ × ℚ) × (String × ℚ × ℚ × ℚ) :=
  (s.player.consts, s.enemy.consts)

/-! ### Invariants of the battle states -/

/-- Spec reading of the fighter invariant of the data model: `hp` in `[0, maxHp]`,
`atk ≥ 0.2 * baseAtk` and `def ≥ 0.2 * baseDef`. -/
def Fighter.Valid (f : Fighter) : Prop :=
  0 ≤ f.hp ∧ f.hp ≤ f.maxHp ∧ 0.2 * f.baseAtk ≤ f.atk ∧ 0.2 * f.baseDef ≤ f.def_

/-- Both item counts are `0` or `1`. -/
def Items.ZeroOrOne (i : Items) : Prop :=
  (i.superPotion = 0 ∨ i.superPotion = 1) ∧ (i.potion = 0 ∨ i.potion = 1)

/-- The defense of the player after `k` debuffs from `15`: `k` successive binary64
multiplications by `0.8`. -/
def playerDefAfter : ℕ → ℚ
  | 0 => 15
  | k + 1 => jsMul (playerDefAfter k) (fl 0.8)

/-- The values the defense of the player takes: `playerDefAfter k` for `k ≤ 4`. -/
def PlayerDefValue (d : ℚ) : Prop := ∃ k : ℕ, k ≤ 4 ∧ d = playerDefAfter k

/-- The invariant of the battle states that can arise. -/
def State.Inv (s : State) : Prop :=
  s.player.Valid ∧ s.enemy.Valid ∧ s.player.items.ZeroOrOne ∧ s.enemy.items.ZeroOrOne ∧
    PlayerDefValue s.player.def_

/-- States reachable from the reset state by any sequence of player moves, player
items, opponent turns (for any random draws) and resets, whatever the `busy` flag. -/
inductive ReachableBySteps : State → Prop
  | reset : ReachableBySteps (resetBattle state)
  | playerMove (moveKey : MoveKey) (r : ℚ) (s : State) :
      ReachableBySteps s → ReachableBySteps (handlePlayerMove moveKey r s)
  | playerItem (itemKey : ItemKey) (r : ℚ) (s : State) :
      ReachableBySteps s → ReachableBySteps (handlePlayerItem itemKey r s)
  | opponentTurn (r : ℚ) (s : State) : ReachableBySteps s → ReachableBySteps (enemyTurn r s)
  | restart (s : State) : ReachableBySteps s → ReachableBySteps (resetBattle s)

end Battle

namespace Client

/-! ## Offer-lifecycle client (`src/frontend/app.js`)

Values of the ledger (`BigNumber`) are the integers they denote; a decimal string
produced by `BigNumber.prototype.toString` is represented by that integer.  The
responses of the external systems (ledger contract, wallet, clock) are gathered in
`World`; library and built-in functions whose code is not in the repository
(`ethers.utils`, `BigNumber.from`, `parseInt`, `Number`, `String.prototype.trim`,
`String.prototype.toLowerCase`) are the fields of `Env`. -/

/-- One of the objects `error.error` / `error.data` of a thrown value. -/
structure ErrorPayload where
  message : Option String
  deriving DecidableEq

/-- The fields of a thrown value that `parseEthersError` probes. -/
structure EthersError where
  error : Option ErrorPayload
  data : Option ErrorPayload
  reason : Option String
  message : Option String
  deriving DecidableEq

/-- The value built by `new Error(msg)`. -/
def jsError (msg : String) : EthersError :=
  { error := none, data := none, reason := none, message := some msg }

/-- JavaScript truthiness of a value that is a string, `null` or `undefined`. -/
def truthy : Option String → Bool
  | some str => decide (str ≠ "")
  | none => false

/-- The expression `message.split(newline)[0]`: the text before the first line feed. -/
def firstLine (message : String) : String :=
  String.mk (message.data.takeWhile (fun c => decide (c ≠ Char.ofNat 10)))

/-- Source `parseEthersError` (lines 707-714); `none` is `null`, and the argument is `none`
when the thrown value is falsy. -/
def parseEthersError (error : Option EthersError) : Option String :=
  match error with
  | none => none
  | some e =>
    if truthy (e.error.bind (fun p => p.message)) then e.error.bind (fun p => p.message)
    else if truthy (e.data.bind (fun p => p.message)) then e.data.bind (fun p => p.message)
    else if truthy e.reason then e.reason
    else if truthy e.message then e.message.map firstLine
    else none

/-- The value of `parseEthersError(err) || fallback`. -/
def messageOr (err : EthersError) (fallback : String) : String :=
  match parseEthersError (some err) with
  | some msg => if msg ≠ "" then msg else fallback
  | none => fallback

/-- Library and built-in functions used by the client. -/
structure Env where
  isAddress : String → Bool
  getAddress : String → String
  bigNumberFrom : String → Except EthersError ℤ
  parseInt : String → Option ℤ
  number : String → Option ℚ
  trim : String → String
  toLowerCase : String → String

/-- The shapes `AppConfig.eventQueryStartBlock` can take. -/
inductive StartBlockConfig
  | number (n : ℚ)
  | notFinite
  | string (str : String)
  | other
  deriving DecidableEq

/-- The fields of `window.AppConfig` read by the modelled functions. -/
structure AppConfig where
  contractAddress : String
  eventQueryStartBlock : StartBlockConfig
  maxNftsPerSide : Option ℕ

/-- A wallet or JSON-RPC provider object. -/
structure Provider where
  id : ℕ
  deriving DecidableEq

/-- The signer obtained by `provider.getSigner()`. -/
structure Signer where
  provider : Provider
  deriving DecidableEq

/-- What a contract handle is bound to. -/
inductive Runner
  | provider (p : Provider)
  | signer (sg : Signer)
  deriving DecidableEq

/-- A handle `new Contract(address, abi, runner)`. -/
structure Contract where
  address : String
  abi : Option String
  runner : Runner
  deriving DecidableEq

/-- An item of an offer side. -/
structure NftItem where
  contract : String
  tokenId : ℕ
  deriving DecidableEq

/-- The tuple returned by the ledger's `getOfferDetails`. -/
structure RawOffer where
  creator : String
  recipient : String
  tokenAContracts : List String
  tokenAIds : List ℕ
  tokenBContracts : List String
  tokenBIds : List ℕ
  expiresAt : ℕ
  isActive : Bool
  deriving DecidableEq

/-- The projection built by `mapOffer`. -/
structure Offer where
  offerId : ℕ
  creator : String
  recipient : String
  tokenA : List NftItem
  tokenB : List NftItem
  expiresAt : ℕ
  isActive : Bool
  isExpired : Bool
  deriving DecidableEq

/-- The module-level `state` object (lines 11-24) with `chainId`, which
`connectWallet` adds. -/
structure State where
  abi : Option String
  account : Option String
  chainId : Option ℕ
  provider : Option Provider
  signer : Option Signer
  contract : Option Contract
  readProvider : Option Provider
  readContract : Option Contract
  nftLimit : ℕ
  offers : List Offer
  cachedFee : Option ℕ
  refreshing : Bool
  listenersRegistered : Bool
  deriving DecidableEq

/-- The literal `state` (lines 11-24). -/
def state (cfg : AppConfig) : State :=
  { abi := none, account := none, chainId := none, provider := none, signer := none,
    contract := none, readProvider := none, readContract := none,
    nftLimit := match cfg.maxNftsPerSide with
      | some n => if n = 0 then 20 else n
      | none => 20
    offers := [], cachedFee := none, refreshing := false, listenersRegistered := false }

/-- Arguments of `createMultiSwapOffer`, the attached payment included. -/
structure CreateArgs where
  offerContracts : List String
  offerTokenIds : List ℤ
  requestContracts : List String
  requestTokenIds : List ℤ
  durationSeconds : ℤ
  value : ℕ
  deriving DecidableEq

/-- A call made on a contract handle or on a pending transaction. -/
inductive Call
  | queryFilter (startBlock : ℚ)
  | getOfferDetails (offerId : ℕ)
  | fee
  | createMultiSwapOffer (args : CreateArgs)
  | wait (txHash : String)
  deriving DecidableEq

/-- Responses of the ledger, of pending transactions and of the clock. -/
structure World where
  queryFilter : ℚ → Except EthersError (List ℕ)
  getOfferDetails : ℕ → Except EthersError RawOffer
  now : ℕ → ℕ
  fee : Except EthersError ℕ
  createMultiSwapOffer : CreateArgs → Except EthersError String
  wait : String → Except EthersError Unit

/-- Toast kinds. -/
inductive ToastType
  | info
  | success
  | warning
  | error
  deriving DecidableEq

/-- A `showToast(message, type)` call. -/
structure Toast where
  message : String
  type : ToastType
  deriving DecidableEq

/-- Badges of an offer card. -/
inductive Badge
  | self
  | expired
  | recipient
  deriving DecidableEq

/-- What a card button runs when clicked. -/
inductive Handler
  | acceptOffer (offerId : ℕ)
  | cancelOffer (offerId : ℕ)
  | cancelExpiredOffer (offerId : ℕ)
  deriving DecidableEq

/-- A button of the `offer-actions` block. -/
structure Button where
  className : String
  textContent : String
  disabled : Bool
  onClick : Handler
  deriving DecidableEq

/-- The card built by `createOfferCard`. -/
structure OfferCard where
  offerId : ℕ
  badges : List Badge
  creator : String
  tokenA : List NftItem
  tokenB : List NftItem
  expiresAt : ℕ
  actions : List Button
  deriving DecidableEq

/-- Content of `elements.offersList`. -/
inductive OffersList
  | configHint
  | loading
  | empty
  | cards (cs : List OfferCard)
  | loadError
  deriving DecidableEq

/-- What a handler leaves behind: the state, the calls it issued in order, the
toasts it showed and the last content it wrote to the offers list (if any). -/
structure Outcome where
  state : State
  calls : List Call
  toasts : List Toast
  offersList : Option OffersList
  deriving DecidableEq

/-- The constant `ethers.constants.AddressZero`. -/
def addressZero : String := "0x0000000000000000000000000000000000000000"

/-- Method `BigNumber.prototype.toNumber`: throws above 53 bits. -/
def toNumber (n : ℕ) : Except EthersError ℕ :=
  if n < 2 ^ 53 then .ok n else .error (jsError "overflow")

/-- The `contracts.map((address, index) => ...)` of `mapOffer`: reading a missing id
throws. -/
def zipItems : List String → List ℕ → Except EthersError (List NftItem)
  | [], _ => .ok []
  | _ :: _, [] => .error (jsError "Cannot read properties of undefined")
  | address :: contracts, tokenId :: ids =>
    match zipItems contracts ids with
    | .ok items => .ok ({ contract := address, tokenId := tokenId } :: items)
    | .error err => .error err

/-- Source `mapOffer` (lines 474-495); `now` is `Math.floor(Date.now() / 1000)`. -/
def mapOffer (now : ℕ) (offerId : ℕ) (raw : RawOffer) : Except EthersError Offer :=
  match toNumber raw.expiresAt with
  | .error err => .error err
  | .ok expiresAt =>
    let isExpired := decide (expiresAt ≤ now)
    match zipItems raw.tokenAContracts raw.tokenAIds with
    | .error err => .error err
    | .ok tokenA =>
      match zipItems raw.tokenBContracts raw.tokenBIds with
      | .error err => .error err
      | .ok tokenB =>
        .ok { offerId := offerId, creator := raw.creator, recipient := raw.recipient,
              tokenA := tokenA, tokenB := tokenB, expiresAt := expiresAt,
              isActive := raw.isActive, isExpired := isExpired }

/-- The test `isMine` of `createOfferCard` (line 525). -/
def isMine (env : Env) (s : State) (offer : Offer) : Bool :=
  match s.account with
  | some account =>
    decide (account ≠ "") && decide (env.toLowerCase offer.creator = env.toLowerCase account)
  | none => false

/-- Source `createOfferCard` (lines 513-582). -/
def createOfferCard (env : Env) (s : State) (offer : Offer) : OfferCard :=
  let mine := isMine env s offer
  let badges :=
    (if mine then [Badge.self] else []) ++
    (if offer.isExpired then [Badge.expired] else []) ++
    (if offer.recipient ≠ "" ∧ offer.recipient ≠ addressZero then [Badge.recipient] else [])
  let accept : List Button :=
    if !mine then
      [{ className := "primary", textContent := "Accept Offer",
         disabled := offer.isExpired || s.contract.isNone,
         onClick := .acceptOffer offer.offerId }]
    else []
  let cancel : List Button :=
    if mine then
      [{ className := "secondary",
         textContent := if offer.isExpired then "Cancel (expired)" else "Cancel Offer",
         disabled := false,
         onClick := if offer.isExpired then .cancelExpiredOffer offer.offerId
                    else .cancelOffer offer.offerId }]
    else []
  { offerId := offer.offerId, badges := badges, creator := offer.creator,
    tokenA := offer.tokenA, tokenB := offer.tokenB, expiresAt := offer.expiresAt,
    actions := accept ++ cancel }

/-- Source `renderOffers` (lines 497-511). -/
def renderOffers (env : Env) (s : State) : OffersList :=
  if s.offers.isEmpty then .empty else .cards (s.offers.map (createOfferCard env s))

/-- The start block computed in `refreshOffers` (lines 438-447). -/
def startBlock (cfg : AppConfig) (env : Env) : ℚ :=
  match cfg.eventQueryStartBlock with
  | .number n => n
  | .string str =>
    if (env.trim str).length ≠ 0 then
      match env.number str with
      | some parsed => parsed
      | none => 0
    else 0
  | _ => 0

/-- The `Promise.all(logs.map(...))` of `refreshOffers` (lines 450-456): the offer of
every log, or the first failure; `i` is the position of the log. -/
def fetchOffers (w : World) : ℕ → List ℕ → Except EthersError (List Offer)
  | _, [] => .ok []
  | i, id :: logs =>
    match toNumber id with
    | .error err => .error err
    | .ok offerId =>
      match w.getOfferDetails id with
      | .error err => .error err
      | .ok details =>
        match mapOffer (w.now i) offerId details with
        | .error err => .error err
        | .ok offer =>
          match fetchOffers w (i + 1) logs with
          | .error err => .error err
          | .ok offers => .ok (offer :: offers)

/-- The detail calls issued for a list of logs: one per log whose id converts. -/
def detailCalls (logs : List ℕ) : List Call :=
  logs.filterMap (fun id => if id < 2 ^ 53 then some (Call.getOfferDetails id) else none)

/-- Method `Array.prototype.sort` with the comparator `(a, b) => a.expiresAt - b.expiresAt`
(a stable sort). -/
def sortOffers (offers : List Offer) : List Offer :=
  offers.insertionSort (fun a b => a.expiresAt ≤ b.expiresAt)

/-- Source `refreshOffers` (lines 424-472). -/
def refreshOffers (cfg : AppConfig) (env : Env) (w : World) (fromButton : Bool) (s : State) :
    Outcome :=
  match s.readContract with
  | none => { state := s, calls := [], toasts := [], offersList := some .configHint }
  | some _ =>
    if s.refreshing then { state := s, calls := [], toasts := [], offersList := none }
    else
      let s1 := { s with refreshing := true }
      let start := startBlock cfg env
      match w.queryFilter start with
      | .error _ =>
        { state := { s1 with refreshing := false }, calls := [.queryFilter start], toasts := [],
          offersList := some .loadError }
      | .ok logs =>
        let calls := Call.queryFilter start :: detailCalls logs
        match fetchOffers w 0 logs with
        | .error _ =>
          { state := { s1 with refreshing := false }, calls := calls, toasts := [],
            offersList := some .loadError }
        | .ok offers =>
          let s2 := { s1 with offers := sortOffers (offers.filter (fun offer => offer.isActive)) }
          { state := { s2 with refreshing := false }, calls := calls,
            toasts := if fromButton then [{ message := "Offers refreshed.", type := .success }]
                      else [],
            offersList := some (renderOffers env s2) }

/-- Source `updateFee` (lines 161-171): the fee read through the read-only handle is cached. -/
def updateFee (w : World) (s : State) : Outcome :=
  match s.readContract with
  | none => { state := s, calls := [], toasts := [], offersList := none }
  | some _ =>
    match w.fee with
    | .ok fee => { state := { s with cachedFee := some fee }, calls := [.fee], toasts := [],
                   offersList := none }
    | .error _ => { state := s, calls := [.fee], toasts := [], offersList := none }

/-- A row of the create form: the two input values. -/
structure NftRow where
  contractValue : String
  tokenValue : String
  deriving DecidableEq

/-- The create form: the rows of both containers and the duration input. -/
structure Form where
  offerNFTs : List NftRow
  requestNFTs : List NftRow
  durationHours : String
  deriving DecidableEq

/-- The object returned by `readNftInputs`. -/
structure NftInputs where
  contracts : List String
  tokenIds : List ℤ
  deriving DecidableEq

/-- Source `readNftInputs` (lines 397-422) over the rows of one container. -/
def readNftInputs (env : Env) : List NftRow → Except EthersError NftInputs
  | [] => .ok { contracts := [], tokenIds := [] }
  | row :: rows =>
    let contractValue := env.trim row.contractValue
    let tokenValue := env.trim row.tokenValue
    if contractValue = "" ∧ tokenValue = "" then readNftInputs env rows
    else if !env.isAddress contractValue then
      .error (jsError ("Invalid NFT contract address: " ++ contractValue))
    else if tokenValue = "" then .error (jsError "Token ID is required for each NFT.")
    else
      match env.bigNumberFrom tokenValue with
      | .error err => .error err
      | .ok tokenId =>
        match readNftInputs env rows with
        | .error err => .error err
        | .ok rest =>
          .ok { contracts := env.getAddress contractValue :: rest.contracts,
                tokenIds := tokenId :: rest.tokenIds }

/-- The expression `BigNumber.from(durationHours.toString()).mul(3600)` (line 361): a
number of at least `10 ^ 21` prints in exponent form, which `BigNumber.from` rejects. -/
def durationSeconds (durationHours : ℤ) : Except EthersError ℤ :=
  if durationHours < 10 ^ 21 then .ok (durationHours * 3600)
  else .error (jsError "invalid BigNumber string")

/-- The validation part of `handleCreateOffer` (lines 351-361); `parseInt` yields
`none` for a result that is not finite. -/
def validateForm (env : Env) (form : Form) : Except EthersError (NftInputs × NftInputs × ℤ) :=
  match readNftInputs env form.offerNFTs with
  | .error err => .error err
  | .ok offers =>
    match readNftInputs env form.requestNFTs with
    | .error err => .error err
    | .ok requests =>
      if offers.contracts.length = 0 ∨ requests.contracts.length = 0 then
        .error (jsError "You must specify at least one NFT on each side.")
      else
        match env.parseInt form.durationHours with
        | none => .error (jsError "Duration must be a positive number of hours.")
        | some hours =>
          if hours ≤ 0 then .error (jsError "Duration must be a positive number of hours.")
          else
            match durationSeconds hours with
            | .error err => .error err
            | .ok seconds => .ok (offers, requests, seconds)

/-- Source `shortenHash` (lines 682-685). -/
def shortenHash (hash : String) : String :=
  if hash = "" then "" else hash.take 10 ++ "…" ++ hash.takeRight 6

/-- The `catch` block of `handleCreateOffer` (lines 381-383). -/
def createFailed (s : State) (calls : List Call) (toasts : List Toast) (err : EthersError) :
    Outcome :=
  { state := s, calls := calls,
    toasts := toasts ++ [{ message := messageOr err "Failed to create offer.", type := .error }],
    offersList := none }

/-- Source `handleCreateOffer` (lines 339-388). -/
def handleCreateOffer (cfg : AppConfig) (env : Env) (w : World) (form : Form) (s : State) :
    Outcome :=
  match s.contract with
  | none =>
    { state := s, calls := [],
      toasts := [{ message := "Connect your wallet before creating an offer.", type := .warning }],
      offersList := none }
  | some _ =>
    match validateForm env form with
    | .error err => createFailed s [] [] err
    | .ok (offers, requests, seconds) =>
      match w.fee with
      | .error err => createFailed s [.fee] [] err
      | .ok fee =>
        let s1 := { s with cachedFee := some fee }
        let args : CreateArgs :=
          { offerContracts := offers.contracts, offerTokenIds := offers.tokenIds,
            requestContracts := requests.contracts, requestTokenIds := requests.tokenIds,
            durationSeconds := seconds, value := fee }
        match w.createMultiSwapOffer args with
        | .error err => createFailed s1 [.fee, .createMultiSwapOffer args] [] err
        | .ok txHash =>
          let submitted : Toast :=
            { message := "Transaction submitted: " ++ shortenHash txHash, type := .info }
          match w.wait txHash with
          | .error err =>
            createFailed s1 [.fee, .createMultiSwapOffer args, .wait txHash] [submitted] err
          | .ok _ =>
            let refreshed := refreshOffers cfg env w false s1
            { state := refreshed.state,
              calls := [.fee, .createMultiSwapOffer args, .wait txHash] ++ refreshed.calls,
              toasts :=
                [submitted, { message := "Swap offer created successfully.", type := .success }]
                  ++ refreshed.toasts,
              offersList := refreshed.offersList }

/-- Spec reading of "first non-empty wins" over a list of candidate messages. -/
def firstNonEmpty : List (Option String) → Option String
  | [] => none
  | x :: xs => if truthy x then x else firstNonEmpty xs

/-- The four candidate messages of a thrown value, in the order of precedence. -/
def EthersError.candidates (e : EthersError) : List (Option String) :=
  [e.error.bind (fun p => p.message), e.data.bind (fun p => p.message), e.reason, e.message]

/-! ### Concrete inputs used to exercise the definitions -/

/-- A small library environment: every non-empty string is an address, `"7"` and
`"24"` are the only numerals. -/
def sampleEnv : Env :=
  { isAddress := fun a => decide (a ≠ "")
    getAddress := fun a => a
    bigNumberFrom := fun v => if v = "7" then .ok 7 else .error (jsError "invalid BigNumber string")
    parseInt := fun v => if v = "24" then some 24 else none
    number := fun _ => none
    trim := fun v => v
    toLowerCase := fun v => v }

/-- A configuration with a contract address and start block `0`. -/
def sampleConfig : AppConfig :=
  { contractAddress := "0xC0", eventQueryStartBlock := .number 0, maxNftsPerSide := some 20 }

/-- Offer details with one item per side. -/
def sampleRaw (expiresAt : ℕ) (isActive : Bool) : RawOffer :=
  { creator := "0xA1", recipient := addressZero, tokenAContracts := ["0xN1"], tokenAIds := [1],
    tokenBContracts := ["0xN2"], tokenBIds := [2], expiresAt := expiresAt, isActive := isActive }

/-- A ledger with three creation events (offer 2 is inactive), clock at `150`, and the
given fee. -/
def sampleWorld (fee : ℕ) : World :=
  { queryFilter := fun _ => .ok [1, 2, 3]
    getOfferDetails := fun id =>
      if id = 1 then .ok (sampleRaw 300 true)
      else if id = 2 then .ok (sampleRaw 100 false)
      else .ok (sampleRaw 200 true)
    now := fun _ => 150
    fee := .ok fee
    createMultiSwapOffer := fun _ => .ok "0xT1"
    wait := fun _ => .ok () }

/-- A filled create form with one blank row. -/
def sampleForm : Form :=
  { offerNFTs := [{ contractValue := "0xN1", tokenValue := "7" }]
    requestNFTs :=
      [{ contractValue := "", tokenValue := "" }, { contractValue := "0xN2", tokenValue := "7" }]
    durationHours := "24" }

/-- The initial state once the read-only handle is set up. -/
def sampleReader : State :=
  { state sampleConfig with
    readContract := some { address := "0xC0", abi := none, runner := .provider { id := 0 } } }

/-- A session with a connected wallet. -/
def sampleConnected : State :=
  { sampleReader with
    account := some "0xA1"
    contract :=
      some { address := "0xC0", abi := none, runner := .signer { provider := { id := 1 } } } }

/-- An active, unexpired offer created by another account than the sample session's. -/
def sampleOffer : Offer :=
  { offerId := 3, creator := "0xB2", recipient := addressZero,
    tokenA := [{ contract := "0xN1", tokenId := 1 }],
    tokenB := [{ contract := "0xN2", tokenId := 2 }],
    expiresAt := 200, isActive := true, isExpired := false }

/-- A thrown `Error` whose message has two lines. -/
def multiLineError : EthersError := jsError (String.mk ['a', Char.ofNat 10, 'b'])

/-! ### Wallet notifications and the spec reading of the create form -/

/-- Source `disconnectWallet` (lines 298-305). -/
def disconnectWallet (s : State) : State :=
  { s with account := none, provider := none, signer := none, contract := none }

/-- Source `walletHandlers.accountsChanged` (lines 256-267); `accounts` is `none` when the
notification carries no list. -/
def accountsChanged (cfg : AppConfig) (accounts : Option (List String)) (s : State) : State :=
  match accounts with
  | none => disconnectWallet s
  | some [] => disconnectWallet s
  | some (first :: _) =>
    let s1 := { s with account := some first }
    match s1.provider with
    | some provider =>
      let signer : Signer := { provider := provider }
      { s1 with
        signer := some signer
        contract :=
          some { address := cfg.contractAddress, abi := s1.abi, runner := .signer signer } }
    | none => s1

/-- The assignments `connectWallet` makes on success (lines 210-214 and 295) for the
wallet provider, the account and the chain id it obtained. -/
def connectedSession (cfg : AppConfig) (provider : Provider) (account : String) (chainId : ℕ)
    (s : State) : State :=
  { s with
    provider := some provider
    signer := some { provider := provider }
    account := some account
    chainId := some chainId
    contract :=
      some { address := cfg.contractAddress, abi := s.abi,
             runner := .signer { provider := provider } }
    listenersRegistered := true }

/-- Spec reading of a blank row: both inputs are empty once trimmed. -/
def NftRow.Blank (env : Env) (row : NftRow) : Prop :=
  env.trim row.contractValue = "" ∧ env.trim row.tokenValue = ""

/-- Blankness of a row is decidable. -/
instance NftRow.decidableBlank (env : Env) (row : NftRow) : Decidable (NftRow.Blank env row) :=
  inferInstanceAs (Decidable (_ ∧ _))

/-- The non-blank rows of a container, in row order. -/
def nonBlankRows (env : Env) (rows : List NftRow) : List NftRow :=
  rows.filter (fun row => decide (¬ NftRow.Blank env row))

/-- Spec reading of a well-formed row: a well-formed contract address and a non-empty
token id. -/
def NftRow.WellFormed (env : Env) (row : NftRow) : Prop :=
  env.isAddress (env.trim row.contractValue) = true ∧ env.trim row.tokenValue ≠ ""

/-- Spec reading of the conditions under which a create transaction may be submitted:
each side has a non-blank row, every non-blank row is well formed, and the duration
parses to a positive number of hours. -/
def FormAccepted (env : Env) (form : Form) : Prop :=
  nonBlankRows env form.offerNFTs ≠ [] ∧ nonBlankRows env form.requestNFTs ≠ [] ∧
  (∀ row ∈ nonBlankRows env form.offerNFTs, NftRow.WellFormed env row) ∧
  (∀ row ∈ nonBlankRows env form.requestNFTs, NftRow.WellFormed env row) ∧
  ∃ hours : ℤ, env.parseInt form.durationHours = some hours ∧ 0 < hours

/-! ### Further concrete inputs -/

/-- A session connected on chain `43113`. -/
def sampleSession : State := connectedSession sampleConfig { id := 1 } "0xA1" 43113 sampleReader

/-- A ledger with two active offers of another account, the first one expired at clock
`150`. -/
def sampleExpiredWorld : World :=
  { queryFilter := fun _ => .ok [1, 2]
    getOfferDetails := fun id =>
      if id = 1 then .ok { sampleRaw 100 true with creator := "0xB2" }
      else .ok { sampleRaw 300 true with creator := "0xB2" }
    now := fun _ => 150
    fee := .ok 2
    createMultiSwapOffer := fun _ => .ok "0xT1"
    wait := fun _ => .ok () }

end Client

/-! ## Battle sequencer: properties -/

namespace Battle

/-- The exponent of the last place of `x`, from the binade `x` lies in. -/
theorem ulpExponent_eq (x : ℚ) (e : ℤ) (he : -1074 ≤ e) (h1 : (2 : ℚ) ^ (e + 52) ≤ |x|)
    (h2 : |x| < (2 : ℚ) ^ (e + 53)) : ulpExponent x = e := by
  have hpos : 0 < |x| := lt_of_lt_of_le (by positivity) h1
  have hlog : Int.log 2 |x| = e + 52 := by
    apply le_antisymm
    · have := (Int.lt_zpow_iff_log_lt (b := 2) (by norm_num) (x := e + 53) hpos).1
        (by exact_mod_cast h2)
      omega
    · exact (Int.zpow_le_iff_le_log (b := 2) (by norm_num) hpos).1 (by exact_mod_cast h1)
  unfold ulpExponent
  rw [hlog]
  simp [he]

/-- The binary64 rounding of `x`, from its binade and the rounded significand. -/
theorem fl_eq (x : ℚ) (e m : ℤ) (he : -1074 ≤ e) (h1 : (2 : ℚ) ^ (e + 52) ≤ |x|)
    (h2 : |x| < (2 : ℚ) ^ (e + 53)) (hm : roundHalfEven (x / 2 ^ e) = m) :
    fl x = m * 2 ^ e := by
  unfold fl
  rw [ulpExponent_eq x e he h1 h2, hm]

/-- The binary64 literal `0.2`. -/
theorem fl_lit02 : fl 0.2 = 3602879701896397 / 18014398509481984 := by
  rw [fl_eq 0.2 (-55) 7205759403792794 (by norm_num) (by norm_num [abs_of_pos]) (by norm_num [abs_of_pos])
    (by norm_num [roundHalfEven])]
  norm_num

/-- The binary64 literal `0.8`. -/
theorem fl_lit08 : fl 0.8 = 3602879701896397 / 4503599627370496 := by
  rw [fl_eq 0.8 (-53) 7205759403792794 (by norm_num) (by norm_num [abs_of_pos]) (by norm_num [abs_of_pos])
    (by norm_num [roundHalfEven])]
  norm_num

/-- The binary64 literal `0.3`. -/
theorem fl_lit03 : fl 0.3 = 5404319552844595 / 18014398509481984 := by
  rw [fl_eq 0.3 (-54) 5404319552844595 (by norm_num) (by norm_num [abs_of_pos]) (by norm_num [abs_of_pos])
    (by norm_num [roundHalfEven])]
  norm_num

/-- The binary64 literal `0.5` is exact. -/
theorem fl_lit05 : fl 0.5 = 1 / 2 := by
  rw [fl_eq 0.5 (-53) 4503599627370496 (by norm_num) (by norm_num [abs_of_pos]) (by norm_num [abs_of_pos])
    (by norm_num [roundHalfEven])]
  norm_num

/-- The floor `20 * 0.2` is exactly `4` in binary64. -/
theorem jsMul_20_lit02 : jsMul 20 (fl 0.2) = 4 := by
  rw [fl_lit02]
  unfold jsMul
  rw [fl_eq (20 * (3602879701896397 / 18014398509481984)) (-50) 4503599627370496 (by norm_num) (by norm_num [abs_of_pos])
    (by norm_num [abs_of_pos]) (by norm_num [roundHalfEven])]
  norm_num

/-- The floor `15 * 0.2` is exactly `3` in binary64. -/
theorem jsMul_15_lit02 : jsMul 15 (fl 0.2) = 3 := by
  rw [fl_lit02]
  unfold jsMul
  rw [fl_eq (15 * (3602879701896397 / 18014398509481984)) (-51) 6755399441055744 (by norm_num) (by norm_num [abs_of_pos])
    (by norm_num [abs_of_pos]) (by norm_num [roundHalfEven])]
  norm_num

/-- The floor `10 * 0.2` is exactly `2` in binary64. -/
theorem jsMul_10_lit02 : jsMul 10 (fl 0.2) = 2 := by
  rw [fl_lit02]
  unfold jsMul
  rw [fl_eq (10 * (3602879701896397 / 18014398509481984)) (-51) 4503599627370496 (by norm_num) (by norm_num [abs_of_pos])
    (by norm_num [abs_of_pos]) (by norm_num [roundHalfEven])]
  norm_num

/-- Half of `15` is exact in binary64. -/
theorem jsMul_15_lit05 : jsMul 15 (fl 0.5) = 15 / 2 := by
  rw [fl_lit05]
  unfold jsMul
  rw [fl_eq (15 * (1 / 2)) (-50) 8444249301319680 (by norm_num) (by norm_num [abs_of_pos])
    (by norm_num [abs_of_pos]) (by norm_num [roundHalfEven])]
  norm_num

/-- The binary64 product of debuff number 1 from `15`. -/
theorem jsMul_debuff_one : jsMul 15 (fl 0.8) = 12 := by
  rw [fl_lit08]
  unfold jsMul
  rw [fl_eq (15 * (3602879701896397 / 4503599627370496)) (-49) 6755399441055744 (by norm_num) (by norm_num [abs_of_pos])
    (by norm_num [abs_of_pos]) (by norm_num [roundHalfEven])]
  norm_num

/-- The binary64 product of debuff number 2 from `15`. -/
theorem jsMul_debuff_two : jsMul 12 (fl 0.8) = 1351079888211149 / 140737488355328 := by
  rw [fl_lit08]
  unfold jsMul
  rw [fl_eq (12 * (3602879701896397 / 4503599627370496)) (-49) 5404319552844596 (by norm_num) (by norm_num [abs_of_pos])
    (by norm_num [abs_of_pos]) (by norm_num [roundHalfEven])]
  norm_num

/-- The binary64 product of debuff number 3 from `15`. -/
theorem jsMul_debuff_three : jsMul (1351079888211149 / 140737488355328) (fl 0.8) = 4323455642275677 / 562949953421312 := by
  rw [fl_lit08]
  unfold jsMul
  rw [fl_eq ((1351079888211149 / 140737488355328) * (3602879701896397 / 4503599627370496)) (-50) 8646911284551354 (by norm_num) (by norm_num [abs_of_pos])
    (by norm_num [abs_of_pos]) (by norm_num [roundHalfEven])]
  norm_num

/-- The binary64 product of debuff number 4 from `15`. -/
theorem jsMul_debuff_four : jsMul (4323455642275677 / 562949953421312) (fl 0.8) = 1729382256910271 / 281474976710656 := by
  rw [fl_lit08]
  unfold jsMul
  rw [fl_eq ((4323455642275677 / 562949953421312) * (3602879701896397 / 4503599627370496)) (-50) 6917529027641084 (by norm_num) (by norm_num [abs_of_pos])
    (by norm_num [abs_of_pos]) (by norm_num [roundHalfEven])]
  norm_num

/-- The binary64 product of debuff number 5 from `15`. -/
theorem jsMul_debuff_five : jsMul (1729382256910271 / 281474976710656) (fl 0.8) = 1383505805528217 / 281474976710656 := by
  rw [fl_lit08]
  unfold jsMul
  rw [fl_eq ((1729382256910271 / 281474976710656) * (3602879701896397 / 4503599627370496)) (-50) 5534023222112868 (by norm_num) (by norm_num [abs_of_pos])
    (by norm_num [abs_of_pos]) (by norm_num [roundHalfEven])]
  norm_num

/-- The quotient `20 / 10` is exact in binary64. -/
theorem jsDiv_20_10 : jsDiv 20 10 = 2 := by
  unfold jsDiv
  rw [fl_eq (20 / 10) (-51) 4503599627370496 (by norm_num) (by norm_num [abs_of_pos])
    (by norm_num [abs_of_pos]) (by norm_num [roundHalfEven])]
  norm_num

/-- The product `25 * 2` is exact in binary64. -/
theorem jsMul_25_2 : jsMul 25 2 = 50 := by
  unfold jsMul
  rw [fl_eq (25 * 2) (-47) 7036874417766400 (by norm_num) (by norm_num [abs_of_pos])
    (by norm_num [abs_of_pos]) (by norm_num [roundHalfEven])]
  norm_num

/-- The quotient `15 / 10` is exact in binary64. -/
theorem jsDiv_15_10 : jsDiv 15 10 = 3 / 2 := by
  unfold jsDiv
  rw [fl_eq (15 / 10) (-52) 6755399441055744 (by norm_num) (by norm_num [abs_of_pos])
    (by norm_num [abs_of_pos]) (by norm_num [roundHalfEven])]
  norm_num

/-- The product `15 * 1.5` is exact in binary64. -/
theorem jsMul_15_three_halves : jsMul 15 (3 / 2) = 45 / 2 := by
  unfold jsMul
  rw [fl_eq (15 * (3 / 2)) (-48) 6333186975989760 (by norm_num) (by norm_num [abs_of_pos])
    (by norm_num [abs_of_pos]) (by norm_num [roundHalfEven])]
  norm_num

/-- The binary64 quotient `41 / 10` lies just below `4.1`. -/
theorem jsDiv_41_10 : jsDiv 41 10 = 2308094809027379 / 562949953421312 := by
  unfold jsDiv
  rw [fl_eq (41 / 10) (-50) 4616189618054758 (by norm_num) (by norm_num [abs_of_pos])
    (by norm_num [abs_of_pos]) (by norm_num [roundHalfEven])]
  norm_num

/-- The binary64 product of `15` and the quotient `41 / 10` lies just below `61.5`. -/
theorem jsMul_15_jsDiv_41_10 : jsMul 15 (2308094809027379 / 562949953421312) = 8655355533852671 / 140737488355328 := by
  unfold jsMul
  rw [fl_eq (15 * (2308094809027379 / 562949953421312)) (-47) 8655355533852671 (by norm_num) (by norm_num [abs_of_pos])
    (by norm_num [abs_of_pos]) (by norm_num [roundHalfEven])]
  norm_num

/-- Function `Math.round` returns the integer the spec's rounding designates. -/
theorem mathRound_eq_of_nearest (q : ℚ) (n : ℤ) (h : IsNearestTiesUp q n) : mathRound q = n := by
  obtain ⟨h1, h2⟩ := h
  unfold mathRound
  rw [Int.floor_eq_iff]
  constructor <;> linarith

/-- The value of `Math.round` is a nearest integer with ties rounded up. -/
theorem nearest_mathRound (q : ℚ) : IsNearestTiesUp q (mathRound q) := by
  unfold IsNearestTiesUp mathRound
  have h1 := Int.floor_le (q + 1 / 2)
  have h2 := Int.lt_floor_add_one (q + 1 / 2)
  constructor <;> linarith

/-- C1 fails at base damage `15`, attack `41`, defense `10`: the exact quotient
`15 * 41 / 10 = 61.5` rounds to `62`, but the binary64 quotient `41 / 10` lies just
below `4.1`, the product just below `61.5`, and `calculateDamage` returns `61`. -/
theorem calculateDamage_below_tie :
    ((0 : ℚ) ≤ 15 ∧ (0 : ℚ) ≤ ({ state.enemy with atk := 41 } : Fighter).atk ∧
      0 < state.enemy.def_) ∧
    IsNearestTiesUp (15 * ({ state.enemy with atk := 41 } : Fighter).atk / state.enemy.def_) 62 ∧
    calculateDamage 15 { state.enemy with atk := 41 } state.enemy = 61 ∧
    calculateDamage 15 { state.enemy with atk := 41 } state.enemy ≠ max 1 62 := by
  have h : calculateDamage 15 { state.enemy with atk := 41 } state.enemy = 61 := by
    show max 1 (mathRound (jsMul 15 (jsDiv 41 10))) = 61
    rw [jsDiv_41_10, jsMul_15_jsDiv_41_10]
    norm_num [mathRound]
  refine ⟨⟨by norm_num, by norm_num, by norm_num [state]⟩, ?_, h, ?_⟩
  · norm_num [IsNearestTiesUp, state]
  · rw [h]
    norm_num

/-- C1 as amended: for base damage `b ≥ 0`, attack `a ≥ 0` and defense `d > 0`,
`calculateDamage` is at least `1` and equals `max 1 n` for the integer `n` nearest (ties
up) to the binary64 product of `b` and the binary64 quotient `a / d`; when that quotient
and that product are exact in binary64, `n` is the integer nearest to `b * a / d`. -/
theorem calculateDamage_eq_max_one_round (b : ℚ) (attacker defender : Fighter)
    (_hb : 0 ≤ b) (_ha : 0 ≤ attacker.atk) (_hd : 0 < defender.def_) :
    1 ≤ calculateDamage b attacker defender ∧
    (∃ n : ℤ, IsNearestTiesUp (jsMul b (jsDiv attacker.atk defender.def_)) n) ∧
    (∀ n : ℤ, IsNearestTiesUp (jsMul b (jsDiv attacker.atk defender.def_)) n →
      calculateDamage b attacker defender = max 1 n) ∧
    (fl (attacker.atk / defender.def_) = attacker.atk / defender.def_ →
      fl (b * (attacker.atk / defender.def_)) = b * (attacker.atk / defender.def_) →
      ∀ n : ℤ, IsNearestTiesUp (b * attacker.atk / defender.def_) n →
        calculateDamage b attacker defender = max 1 n) := by
  refine ⟨le_max_left _ _, ⟨_, nearest_mathRound _⟩, ?_, ?_⟩
  · intro n hn
    unfold calculateDamage
    rw [mathRound_eq_of_nearest _ n hn]
  · intro h1 h2 n hn
    unfold calculateDamage jsMul jsDiv
    rw [h1, h2, ← mul_div_assoc, mathRound_eq_of_nearest _ n hn]

/-- C1 as amended, at the two worked inputs, where quotient and product are exact:
`(25, 20, 10)` gives `50` and `(15, 15, 10)` gives `23`. -/
theorem calculateDamage_examples :
    ((0 : ℚ) ≤ 25 ∧ 0 ≤ state.player.atk ∧ 0 < state.enemy.def_ ∧
      calculateDamage 25 state.player state.enemy = 50) ∧
    ((0 : ℚ) ≤ 15 ∧ 0 ≤ state.enemy.atk ∧ 0 < state.enemy.def_ ∧
      calculateDamage 15 state.enemy state.enemy = 23) := by
  have q1 : fl (state.player.atk / state.enemy.def_) = state.player.atk / state.enemy.def_ := by
    have h := jsDiv_20_10
    unfold jsDiv at h
    show fl (20 / 10) = 20 / 10
    rw [h]
    norm_num
  have p1 : fl (25 * (state.player.atk / state.enemy.def_)) =
      25 * (state.player.atk / state.enemy.def_) := by
    have h := jsMul_25_2
    unfold jsMul at h
    show fl (25 * (20 / 10)) = 25 * (20 / 10)
    rw [show (25 : ℚ) * (20 / 10) = 25 * 2 by norm_num, h]
    norm_num
  have q2 : fl (state.enemy.atk / state.enemy.def_) = state.enemy.atk / state.enemy.def_ := by
    have h := jsDiv_15_10
    unfold jsDiv at h
    show fl (15 / 10) = 15 / 10
    rw [h]
    norm_num
  have p2 : fl (15 * (state.enemy.atk / state.enemy.def_)) =
      15 * (state.enemy.atk / state.enemy.def_) := by
    have h := jsMul_15_three_halves
    unfold jsMul at h
    show fl (15 * (15 / 10)) = 15 * (15 / 10)
    rw [show (15 : ℚ) * (15 / 10) = 15 * (3 / 2) by norm_num, h]
    norm_num
  refine ⟨⟨by norm_num, by norm_num [state], by norm_num [state], ?_⟩,
    ⟨by norm_num, by norm_num [state], by norm_num [state], ?_⟩⟩
  · exact (calculateDamage_eq_max_one_round 25 state.player state.enemy (by norm_num)
      (by norm_num [state]) (by norm_num [state])).2.2.2 q1 p1 50
      (by norm_num [IsNearestTiesUp, state])
  · exact (calculateDamage_eq_max_one_round 15 state.enemy state.enemy (by norm_num)
      (by norm_num [state]) (by norm_num [state])).2.2.2 q2 p2 23
      (by norm_num [IsNearestTiesUp, state])

/-- Banana Blast from the player of the literal `state` on its enemy deals `50`. -/
theorem calculateDamage_blast : calculateDamage 25 state.player state.enemy = 50 := by
  show max 1 (mathRound (jsMul 25 (jsDiv 20 10))) = 50
  rw [jsDiv_20_10, jsMul_25_2]
  norm_num [mathRound]

/-- The entry `moves.rug` is a damage move with base damage `15`. -/
theorem moves_rug : moves .rug = .damage "Rug" 15 := rfl

/-- The debuffed stat after one `applyDebuff`. -/
theorem applyDebuff_stat (f : Fighter) (k : StatKey) :
    (applyDebuff f k).stat k =
      max (jsMul (f.base k) (fl 0.2)) (jsMul (f.stat k) (fl 0.8)) := by
  cases k <;> rfl

/-- Function `applyDebuff` keeps both base values. -/
theorem applyDebuff_base (f : Fighter) (k k' : StatKey) :
    (applyDebuff f k).base k' = f.base k' := by
  cases k <;> cases k' <;> rfl

/-- One more call of `applyDebuff` after `n` calls. -/
theorem applyDebuffTimes_succ (n : ℕ) (f : Fighter) (k : StatKey) :
    applyDebuffTimes (n + 1) f k = applyDebuff (applyDebuffTimes n f k) k := by
  unfold applyDebuffTimes
  rw [Function.iterate_succ_apply']

/-- Repeated `applyDebuff` keeps both base values. -/
theorem applyDebuffTimes_base (n : ℕ) (f : Fighter) (k k' : StatKey) :
    (applyDebuffTimes n f k).base k' = f.base k' := by
  induction n with
  | zero => rfl
  | succ n ih => rw [applyDebuffTimes_succ, applyDebuff_base, ih]

/-- C2: in the arithmetic of the program (`0.2 * base` and `0.8 * stat` are the binary64
products with the literals `0.2` and `0.8`), when the stat starts at or above
`0.2 * base` it is still at or above `0.2 * base` after any number `n` of `applyDebuff`
calls on it; one call sets it to `max (0.2 * base) (0.8 * stat)` and leaves the other
stat, `hp`, `items` and the constant fields unchanged; for the base values of the
program (`20`, `15`, `10`) the binary64 product `0.2 * base` is the exact one. -/
theorem applyDebuff_floor (f : Fighter) (k : StatKey)
    (h : jsMul (f.base k) (fl 0.2) ≤ f.stat k) :
    (∀ n : ℕ, jsMul (f.base k) (fl 0.2) ≤ (applyDebuffTimes n f k).stat k) ∧
    (applyDebuff f k).stat k =
      max (jsMul (f.base k) (fl 0.2)) (jsMul (f.stat k) (fl 0.8)) ∧
    (∀ k' : StatKey, k' ≠ k → (applyDebuff f k).stat k' = f.stat k') ∧
    (applyDebuff f k).hp = f.hp ∧ (applyDebuff f k).items = f.items ∧
    (applyDebuff f k).name = f.name ∧ (applyDebuff f k).maxHp = f.maxHp ∧
    (applyDebuff f k).baseAtk = f.baseAtk ∧ (applyDebuff f k).baseDef = f.baseDef ∧
    (jsMul 20 (fl 0.2) = 0.2 * 20 ∧ jsMul 15 (fl 0.2) = 0.2 * 15 ∧
      jsMul 10 (fl 0.2) = 0.2 * 10) := by
  refine ⟨?_, ?_, ?_, ?_, ?_, ?_, ?_, ?_, ?_, ?_⟩
  · intro n
    cases n with
    | zero => exact h
    | succ n =>
      rw [applyDebuffTimes_succ, applyDebuff_stat, applyDebuffTimes_base]
      exact le_max_left _ _
  · rw [applyDebuff_stat]
  · intro k' hk
    cases k <;> cases k' <;> first | rfl | exact absurd rfl hk
  · cases k <;> rfl
  · cases k <;> rfl
  · cases k <;> rfl
  · cases k <;> rfl
  · cases k <;> rfl
  · cases k <;> rfl
  · rw [jsMul_20_lit02, jsMul_15_lit02, jsMul_10_lit02]
    norm_num

/-- C2 on the player's defense: the floor `0.2 * 15` is `3`, the defense `15` becomes
`12`, and twenty debuffs stay at or above the floor. -/
theorem applyDebuff_floor_example :
    jsMul (state.player.base .def_) (fl 0.2) ≤ state.player.stat .def_ ∧
    jsMul (state.player.base .def_) (fl 0.2) = 3 ∧
    (applyDebuff state.player .def_).stat .def_ = 12 ∧
    jsMul (state.player.base .def_) (fl 0.2) ≤
      (applyDebuffTimes 20 state.player .def_).stat .def_ := by
  have hf : jsMul (state.player.base .def_) (fl 0.2) = 3 := jsMul_15_lit02
  have h0 : jsMul (state.player.base .def_) (fl 0.2) ≤ state.player.stat .def_ := by
    rw [hf]
    norm_num [state, Fighter.stat]
  have h := applyDebuff_floor state.player .def_ h0
  refine ⟨h0, hf, ?_, h.1 20⟩
  rw [h.2.1, hf]
  show max 3 (jsMul 15 (fl 0.8)) = 12
  rw [jsMul_debuff_one]
  norm_num

/-- C3: `healTarget` sets `hp` to `min maxHp (hp + amount)`, which never exceeds
`maxHp`, returns `min maxHp (hp + amount) - hp` for the `hp` before the call, and
changes no other field. -/
theorem healTarget_spec (fighter : Fighter) (amount : ℚ) :
    (healTarget fighter amount).1.hp = min fighter.maxHp (fighter.hp + amount) ∧
    (healTarget fighter amount).1.hp ≤ (healTarget fighter amount).1.maxHp ∧
    (healTarget fighter amount).2 = min fighter.maxHp (fighter.hp + amount) - fighter.hp ∧
    (healTarget fighter amount).1 = { fighter with hp := min fighter.maxHp (fighter.hp + amount) } :=
  ⟨rfl, min_le_left _ _, rfl, rfl⟩

/-- Fighters with the same constant fields reset to the same record. -/
theorem resetStats_eq_of_consts (f g : Fighter) (h : f.consts = g.consts) :
    resetStats f = resetStats g := by
  simp only [Fighter.consts, Prod.mk.injEq] at h
  obtain ⟨h1, h2, h3, h4⟩ := h
  simp [resetStats, h1, h2, h3, h4]

/-- States with the same constant fields reset to the same state. -/
theorem resetBattle_eq_of_consts (s t : State) (h : s.consts = t.consts) :
    resetBattle s = resetBattle t := by
  simp only [State.consts, Prod.mk.injEq] at h
  simp [resetBattle, resetStats_eq_of_consts _ _ h.1, resetStats_eq_of_consts _ _ h.2]

/-- Function `applyDebuff` keeps the constant fields. -/
theorem applyDebuff_consts (f : Fighter) (k : StatKey) : (applyDebuff f k).consts = f.consts := by
  cases k <;> rfl

/-- Function `checkEnd` keeps the constant fields. -/
theorem checkEnd_consts (s : State) : (checkEnd s).1.consts = s.consts := by
  unfold checkEnd
  split_ifs <;> rfl

/-- Function `enemyTurn` keeps the constant fields. -/
theorem enemyTurn_consts (r : ℚ) (s : State) : (enemyTurn r s).consts = s.consts := by
  unfold enemyTurn
  simp only []
  split_ifs <;> rw [checkEnd_consts] <;> rfl

/-- Function `finishTurn` keeps the constant fields. -/
theorem finishTurn_consts (r : ℚ) (s : State) : (finishTurn r s).consts = s.consts := by
  unfold finishTurn
  simp only []
  split_ifs
  · exact checkEnd_consts s
  · exact (enemyTurn_consts r _).trans (checkEnd_consts s)

/-- Function `handlePlayerMove` keeps the constant fields. -/
theorem handlePlayerMove_consts (k : MoveKey) (r : ℚ) (s : State) :
    (handlePlayerMove k r s).consts = s.consts := by
  cases k <;> simp only [handlePlayerMove, moves] <;> rw [finishTurn_consts] <;> rfl

/-- Function `handlePlayerItem` keeps the constant fields. -/
theorem handlePlayerItem_consts (k : ItemKey) (r : ℚ) (s : State) :
    (handlePlayerItem k r s).consts = s.consts := by
  unfold handlePlayerItem
  split_ifs
  · rfl
  · simp only []
    rw [finishTurn_consts]
    rfl

/-- Function `resetBattle` keeps the constant fields. -/
theorem resetBattle_consts (s : State) : (resetBattle s).consts = s.consts := rfl

/-- Every click keeps the constant fields. -/
theorem onClick_consts (c : Click) (r : ℚ) (s : State) : (onClick c r s).consts = s.consts := by
  cases c with
  | move k => unfold onClick; simp only []; split_ifs; rfl; exact handlePlayerMove_consts k r s
  | item k => unfold onClick; simp only []; split_ifs; rfl; exact handlePlayerItem_consts k r s
  | play => rfl

/-- Every reachable state has the constant fields of the literal `state`. -/
theorem reachable_consts (s : State) (h : Reachable s) : s.consts = state.consts := by
  induction h with
  | reset => rfl
  | click c r s _ ih => rw [onClick_consts, ih]

/-- The literal `state` is already in its reset configuration. -/
theorem resetBattle_state : resetBattle state = state := rfl

/-- C5: `resetStats` sets `hp = maxHp`, `atk = baseAtk`, `def = baseDef` and one item of
each kind, keeps `name`, `maxHp`, `baseAtk`, `baseDef`, and is idempotent; from every
reachable battle state `resetBattle` yields the same state, the literal `state`
(player 80 / 20 / 15, enemy 50 / 15 / 10, `busy = false`). -/
theorem resetStats_idempotent_resetBattle_canonical (fighter : Fighter) (s : State)
    (hs : Reachable s) :
    (resetStats fighter).hp = fighter.maxHp ∧ (resetStats fighter).atk = fighter.baseAtk ∧
    (resetStats fighter).def_ = fighter.baseDef ∧
    (resetStats fighter).items = { superPotion := 1, potion := 1 } ∧
    (resetStats fighter).name = fighter.name ∧ (resetStats fighter).maxHp = fighter.maxHp ∧
    (resetStats fighter).baseAtk = fighter.baseAtk ∧
    (resetStats fighter).baseDef = fighter.baseDef ∧
    resetStats (resetStats fighter) = resetStats fighter ∧
    resetBattle (resetBattle s) = resetBattle s ∧
    resetBattle s = state ∧
    (resetBattle s).busy = false ∧
    ((resetBattle s).player.hp = 80 ∧ (resetBattle s).player.atk = 20 ∧
      (resetBattle s).player.def_ = 15) ∧
    ((resetBattle s).enemy.hp = 50 ∧ (resetBattle s).enemy.atk = 15 ∧
      (resetBattle s).enemy.def_ = 10) := by
  have h : resetBattle s = state :=
    (resetBattle_eq_of_consts s state (reachable_consts s hs)).trans resetBattle_state
  refine ⟨rfl, rfl, rfl, rfl, rfl, rfl, rfl, rfl, rfl, rfl, h, ?_, ?_, ?_⟩ <;> rw [h] <;>
    simp [state]

/-- The state Banana Blast leaves from the reset state: the enemy at `0` hp and the lock
cleared. -/
theorem handlePlayerMove_blast_reset (r : ℚ) :
    handlePlayerMove .blast r (resetBattle state) =
      { state with enemy := { state.enemy with hp := 0 } } := by
  have h : calculateDamage 25 (resetStats state.player) (resetStats state.enemy) = 50 :=
    calculateDamage_blast
  simp only [handlePlayerMove, moves, resetBattle, h]
  norm_num [resetStats, state, applyDamage, finishTurn, checkEnd, endBattle]

/-- The enemy record Chop It Off leaves from the literal `state`: attack `12`. -/
theorem applyDebuff_enemy_atk : applyDebuff state.enemy .atk = { state.enemy with atk := 12 } := by
  have h : max (jsMul 15 (fl 0.2)) (jsMul 15 (fl 0.8)) = 12 := by
    rw [jsMul_15_lit02, jsMul_debuff_one]
    norm_num
  show ({ state.enemy with atk := max (jsMul 15 (fl 0.2)) (jsMul 15 (fl 0.8)) } : Fighter) = _
  rw [h]

/-- C5 after a won battle: the state after one Banana Blast is reachable, has the enemy at
`0` hp, and resets to the literal `state`. -/
theorem resetBattle_after_win :
    Reachable (onClick (.move .blast) 0 (resetBattle state)) ∧
    (onClick (.move .blast) 0 (resetBattle state)).enemy.hp = 0 ∧
    resetBattle (onClick (.move .blast) 0 (resetBattle state)) = state :=
  ⟨.click _ _ _ .reset, by
      show (handlePlayerMove .blast 0 (resetBattle state)).enemy.hp = 0
      rw [handlePlayerMove_blast_reset],
    (resetStats_idempotent_resetBattle_canonical state.player _
      (.click _ _ _ .reset)).2.2.2.2.2.2.2.2.2.2.1⟩

/-- Function `handlePlayerMove` always ends with `state.busy = false`, whether or not `checkEnd`
ended the battle. -/
theorem handlePlayerMove_busy (moveKey : MoveKey) (r : ℚ) (s : State) :
    (handlePlayerMove moveKey r s).busy = false := by
  cases moveKey <;> rfl

/-- Function `handlePlayerItem` ends with `state.busy = false` whenever the item is held. -/
theorem handlePlayerItem_busy (itemKey : ItemKey) (r : ℚ) (s : State)
    (h : s.player.items.get itemKey ≠ 0) : (handlePlayerItem itemKey r s).busy = false := by
  unfold handlePlayerItem
  rw [if_neg h]
  rfl

/-- With the enemy at `0` hp the end of a player handler only clears the lock. -/
theorem finishTurn_of_enemy_fainted (r : ℚ) (s : State) (h : s.enemy.hp = 0) :
    finishTurn r s = { s with busy := false } := by
  unfold finishTurn checkEnd
  rw [if_pos h]
  rfl

/-- C4 at the reset state: Banana Blast brings the enemy to `0` hp, yet the handler leaves
`busy = false`; a following click on Chop It Off is accepted and lowers the enemy's
attack from `15` to `12`, and a following click on the potion consumes it. -/
theorem handlePlayerMove_win_leaves_unlocked :
    (resetBattle state).enemy.atk = 15 ∧
    (handlePlayerMove .blast 0 (resetBattle state)).enemy.hp = 0 ∧
    (handlePlayerMove .blast 0 (resetBattle state)).busy = false ∧
    (onClick (.move .chop) 0 (handlePlayerMove .blast 0 (resetBattle state))).enemy.atk = 12 ∧
    (onClick (.item .potion) 0 (handlePlayerMove .blast 0 (resetBattle state))).player.items.potion
      = 0 := by
  rw [handlePlayerMove_blast_reset]
  refine ⟨rfl, rfl, rfl, ?_, ?_⟩
  · show (finishTurn 0
      { busy := true, player := state.player,
        enemy := applyDebuff { state.enemy with hp := 0 } .atk }).enemy.atk = 12
    rw [finishTurn_of_enemy_fainted _ _ rfl]
    show max (jsMul 15 (fl 0.2)) (jsMul 15 (fl 0.8)) = 12
    rw [jsMul_15_lit02, jsMul_debuff_one]
    norm_num
  · show (finishTurn 0
      { busy := true,
        player :=
          (healTarget
            { state.player with
              items := state.player.items.set .potion (state.player.items.get .potion - 1) }
            (itemData .potion)).1,
        enemy := { state.enemy with hp := 0 } }).player.items.potion = 0
    rw [finishTurn_of_enemy_fainted _ _ rfl]
    rfl

/-- Function `checkEnd` leaves the player record as it is. -/
theorem checkEnd_player (s : State) : (checkEnd s).1.player = s.player := by
  unfold checkEnd
  split_ifs <;> rfl

/-- Function `checkEnd` leaves the enemy record as it is. -/
theorem checkEnd_enemy (s : State) : (checkEnd s).1.enemy = s.enemy := by
  unfold checkEnd
  split_ifs <;> rfl

/-- C13: for every state and every draw `r` in `[0, 1)`, the opponent turn does exactly
one thing, by priority: with enemy `hp ≤ 20` and a super potion held it consumes one and
sets `hp` to `min maxHp (hp + 50)`; else with `hp ≤ 10` and a potion held it consumes one
and sets `hp` to `min maxHp (hp + 10)`; else with the player `def` above half its base
and `r < 0.3` it sets the player `def` to `max (0.2 * baseDef) (0.8 * def)`; otherwise it
lowers the player `hp` by `calculateDamage` of Rug (base damage `15`), not below `0`.
In each case the other fighter record and every other field stay as they were.  The
products and the literals `0.5`, `0.3`, `0.2`, `0.8` are those of the program
(binary64): the literal `0.5` is exact, `0.3` is the binary64 number next below `0.3`, and
with the base defense `15` of the player the threshold is `7.5` and the floor `3`. -/
theorem enemyTurn_policy (r : ℚ) (s : State) (_h0 : 0 ≤ r) (_h1 : r < 1) :
    (s.enemy.hp ≤ 20 ∧ s.enemy.items.superPotion > 0 →
      (enemyTurn r s).enemy =
        { s.enemy with
          hp := min s.enemy.maxHp (s.enemy.hp + 50)
          items := { s.enemy.items with superPotion := s.enemy.items.superPotion - 1 } } ∧
      (enemyTurn r s).player = s.player) ∧
    (¬ (s.enemy.hp ≤ 20 ∧ s.enemy.items.superPotion > 0) →
      s.enemy.hp ≤ 10 ∧ s.enemy.items.potion > 0 →
      (enemyTurn r s).enemy =
        { s.enemy with
          hp := min s.enemy.maxHp (s.enemy.hp + 10)
          items := { s.enemy.items with potion := s.enemy.items.potion - 1 } } ∧
      (enemyTurn r s).player = s.player) ∧
    (¬ (s.enemy.hp ≤ 20 ∧ s.enemy.items.superPotion > 0) →
      ¬ (s.enemy.hp ≤ 10 ∧ s.enemy.items.potion > 0) →
      s.player.def_ > jsMul s.player.baseDef (fl 0.5) ∧ r < fl 0.3 →
      (enemyTurn r s).player =
        { s.player with
          def_ := max (jsMul s.player.baseDef (fl 0.2)) (jsMul s.player.def_ (fl 0.8)) } ∧
      (enemyTurn r s).enemy = s.enemy) ∧
    (¬ (s.enemy.hp ≤ 20 ∧ s.enemy.items.superPotion > 0) →
      ¬ (s.enemy.hp ≤ 10 ∧ s.enemy.items.potion > 0) →
      ¬ (s.player.def_ > jsMul s.player.baseDef (fl 0.5) ∧ r < fl 0.3) →
      (enemyTurn r s).player =
        { s.player with hp := max 0 (s.player.hp - calculateDamage 15 s.enemy s.player) } ∧
      (enemyTurn r s).enemy = s.enemy) ∧
    (fl 0.5 = 0.5 ∧ fl 0.3 ≤ 0.3 ∧ 0.3 - 1 / 10 ^ 16 < fl 0.3) ∧
    (s.player.baseDef = 15 →
      jsMul s.player.baseDef (fl 0.5) = 0.5 * s.player.baseDef ∧
      jsMul s.player.baseDef (fl 0.2) = 0.2 * s.player.baseDef) := by
  refine ⟨?_, ?_, ?_, ?_, ?_, ?_⟩
  · intro h
    unfold enemyTurn
    simp only []
    rw [if_pos h, checkEnd_enemy, checkEnd_player]
    exact ⟨rfl, rfl⟩
  · intro h1 h2
    unfold enemyTurn
    simp only []
    rw [if_neg h1, if_pos h2, checkEnd_enemy, checkEnd_player]
    exact ⟨rfl, rfl⟩
  · intro h1 h2 h3
    have hd : (decide (s.player.def_ > jsMul s.player.baseDef (fl 0.5)) &&
        decide (r < fl 0.3)) = true := by
      rw [Bool.and_eq_true, decide_eq_true_eq, decide_eq_true_eq]
      exact h3
    unfold enemyTurn
    simp only []
    rw [if_neg h1, if_neg h2, if_pos hd, checkEnd_enemy, checkEnd_player]
    exact ⟨rfl, rfl⟩
  · intro h1 h2 h3
    have hd : ¬ (decide (s.player.def_ > jsMul s.player.baseDef (fl 0.5)) &&
        decide (r < fl 0.3)) = true := by
      rw [Bool.and_eq_true, decide_eq_true_eq, decide_eq_true_eq]
      exact h3
    unfold enemyTurn
    simp only []
    rw [if_neg h1, if_neg h2, if_neg hd, checkEnd_enemy, checkEnd_player]
    exact ⟨rfl, rfl⟩
  · rw [fl_lit05, fl_lit03]
    norm_num
  · intro hb
    rw [hb, jsMul_15_lit05, jsMul_15_lit02]
    norm_num

/-- C13 at the literal `state` with draw `0`: the opponent debuffs the player defense
from `15` to `12` and its own record is unchanged. -/
theorem enemyTurn_policy_reset :
    (0 : ℚ) ≤ 0 ∧ (0 : ℚ) < 1 ∧ (enemyTurn 0 state).player.def_ = 12 ∧
    (enemyTurn 0 state).enemy = state.enemy := by
  have hc : state.player.def_ > jsMul state.player.baseDef (fl 0.5) ∧ (0 : ℚ) < fl 0.3 := by
    constructor
    · show (15 : ℚ) > jsMul 15 (fl 0.5)
      rw [jsMul_15_lit05]
      norm_num
    · rw [fl_lit03]
      norm_num
  have h := (enemyTurn_policy 0 state (le_refl _) (by norm_num)).2.2.1
    (by norm_num [state]) (by norm_num [state]) hc
  refine ⟨le_refl _, by norm_num, ?_, h.2⟩
  rw [h.1]
  show max (jsMul 15 (fl 0.2)) (jsMul 15 (fl 0.8)) = 12
  rw [jsMul_15_lit02, jsMul_debuff_one]
  norm_num

/-- The constant fields of a state that has those of the literal `state`. -/
theorem consts_fields (s : State) (hc : s.consts = state.consts) :
    s.player.maxHp = 80 ∧ s.player.baseAtk = 20 ∧ s.player.baseDef = 15 ∧
    s.enemy.maxHp = 50 ∧ s.enemy.baseAtk = 15 ∧ s.enemy.baseDef = 10 := by
  simp only [State.consts, Fighter.consts, state, Prod.mk.injEq] at hc
  obtain ⟨⟨_, h1, h2, h3⟩, _, h4, h5, h6⟩ := hc
  exact ⟨h1, h2, h3, h4, h5, h6⟩

/-- The enemy record after the opponent turn. -/
theorem enemyTurn_enemy (r : ℚ) (s : State) :
    (enemyTurn r s).enemy =
      if s.enemy.hp ≤ 20 ∧ s.enemy.items.superPotion > 0 then
        { s.enemy with
          hp := min s.enemy.maxHp (s.enemy.hp + 50)
          items := { s.enemy.items with superPotion := s.enemy.items.superPotion - 1 } }
      else if s.enemy.hp ≤ 10 ∧ s.enemy.items.potion > 0 then
        { s.enemy with
          hp := min s.enemy.maxHp (s.enemy.hp + 10)
          items := { s.enemy.items with potion := s.enemy.items.potion - 1 } }
      else s.enemy := by
  unfold enemyTurn
  simp only []
  split_ifs <;> rw [checkEnd_enemy] <;> rfl

/-- The player record after the opponent turn. -/
theorem enemyTurn_player (r : ℚ) (s : State) :
    (enemyTurn r s).player =
      if s.enemy.hp ≤ 20 ∧ s.enemy.items.superPotion > 0 then s.player
      else if s.enemy.hp ≤ 10 ∧ s.enemy.items.potion > 0 then s.player
      else if s.player.def_ > jsMul s.player.baseDef (fl 0.5) ∧ r < fl 0.3 then
        { s.player with
          def_ := max (jsMul s.player.baseDef (fl 0.2)) (jsMul s.player.def_ (fl 0.8)) }
      else { s.player with hp := max 0 (s.player.hp - calculateDamage 15 s.enemy s.player) } := by
  unfold enemyTurn
  simp only [Bool.and_eq_true, decide_eq_true_eq]
  split_ifs <;> rw [checkEnd_player] <;> rfl

/-- Damage is at least `1`. -/
theorem one_le_calculateDamage (b : ℚ) (attacker defender : Fighter) :
    (1 : ℚ) ≤ calculateDamage b attacker defender := by
  have h : (1 : ℤ) ≤ calculateDamage b attacker defender := le_max_left _ _
  exact_mod_cast h

/-- Taking non-negative damage keeps a fighter valid. -/
theorem valid_damage (f : Fighter) (d : ℚ) (hd : 0 ≤ d) (h : f.Valid) :
    Fighter.Valid { f with hp := max 0 (f.hp - d) } := by
  obtain ⟨h1, h2, h3, h4⟩ := h
  refine ⟨le_max_left _ _, max_le (le_trans h1 h2) ?_, h3, h4⟩
  show f.hp - d ≤ f.maxHp
  linarith

/-- Healing by a non-negative amount (and changing the items) keeps a fighter valid. -/
theorem valid_heal (f : Fighter) (amount : ℚ) (i : Items) (ha : 0 ≤ amount) (h : f.Valid) :
    Fighter.Valid { f with hp := min f.maxHp (f.hp + amount), items := i } := by
  obtain ⟨h1, h2, h3, h4⟩ := h
  refine ⟨le_min (le_trans h1 h2) ?_, min_le_left _ _, h3, h4⟩
  show 0 ≤ f.hp + amount
  linarith

/-- A debuff keeps a fighter valid when the binary64 floors of its base values are the
exact ones. -/
theorem valid_applyDebuff (f : Fighter) (k : StatKey) (h : f.Valid)
    (ha : jsMul f.baseAtk (fl 0.2) = 0.2 * f.baseAtk)
    (hd : jsMul f.baseDef (fl 0.2) = 0.2 * f.baseDef) : (applyDebuff f k).Valid := by
  obtain ⟨h1, h2, h3, h4⟩ := h
  cases k
  · refine ⟨h1, h2, ?_, h4⟩
    show 0.2 * f.baseAtk ≤ max (jsMul f.baseAtk (fl 0.2)) (jsMul f.atk (fl 0.8))
    rw [ha]
    exact le_max_left _ _
  · refine ⟨h1, h2, h3, ?_⟩
    show 0.2 * f.baseDef ≤ max (jsMul f.baseDef (fl 0.2)) (jsMul f.def_ (fl 0.8))
    rw [hd]
    exact le_max_left _ _

/-- The binary64 floors of the player of a state with the constant fields of `state`. -/
theorem player_floors (s : State) (hc : s.consts = state.consts) :
    jsMul s.player.baseAtk (fl 0.2) = 0.2 * s.player.baseAtk ∧
    jsMul s.player.baseDef (fl 0.2) = 0.2 * s.player.baseDef := by
  obtain ⟨_, h2, h3, _, _, _⟩ := consts_fields s hc
  rw [h2, h3, jsMul_20_lit02, jsMul_15_lit02]
  norm_num

/-- The binary64 floors of the enemy of a state with the constant fields of `state`. -/
theorem enemy_floors (s : State) (hc : s.consts = state.consts) :
    jsMul s.enemy.baseAtk (fl 0.2) = 0.2 * s.enemy.baseAtk ∧
    jsMul s.enemy.baseDef (fl 0.2) = 0.2 * s.enemy.baseDef := by
  obtain ⟨_, _, _, _, h5, h6⟩ := consts_fields s hc
  rw [h5, h6, jsMul_15_lit02, jsMul_10_lit02]
  norm_num

/-- The defense of the player after one debuff from `15`. -/
theorem playerDefAfter_one : playerDefAfter 1 = 12 := jsMul_debuff_one

/-- The defense of the player after two debuffs from `15`. -/
theorem playerDefAfter_two : playerDefAfter 2 = 1351079888211149 / 140737488355328 := by
  show jsMul (playerDefAfter 1) (fl 0.8) = _
  rw [playerDefAfter_one, jsMul_debuff_two]

/-- The defense of the player after three debuffs from `15`. -/
theorem playerDefAfter_three : playerDefAfter 3 = 4323455642275677 / 562949953421312 := by
  show jsMul (playerDefAfter 2) (fl 0.8) = _
  rw [playerDefAfter_two, jsMul_debuff_three]

/-- The defense of the player after four debuffs from `15`. -/
theorem playerDefAfter_four : playerDefAfter 4 = 1729382256910271 / 281474976710656 := by
  show jsMul (playerDefAfter 3) (fl 0.8) = _
  rw [playerDefAfter_three, jsMul_debuff_four]

/-- A debuff applied above half the base moves the player defense to the next value. -/
theorem playerDefValue_debuff (d : ℚ) (h : PlayerDefValue d) (hd : d > jsMul 15 (fl 0.5)) :
    PlayerDefValue (max (jsMul 15 (fl 0.2)) (jsMul d (fl 0.8))) := by
  obtain ⟨k, hk, rfl⟩ := h
  rw [jsMul_15_lit05] at hd
  rw [jsMul_15_lit02]
  interval_cases k
  · refine ⟨1, by norm_num, ?_⟩
    show max 3 (playerDefAfter 1) = playerDefAfter 1
    rw [playerDefAfter_one]
    norm_num
  · refine ⟨2, by norm_num, ?_⟩
    show max 3 (playerDefAfter 2) = playerDefAfter 2
    rw [playerDefAfter_two]
    norm_num
  · refine ⟨3, by norm_num, ?_⟩
    show max 3 (playerDefAfter 3) = playerDefAfter 3
    rw [playerDefAfter_three]
    norm_num
  · refine ⟨4, by norm_num, ?_⟩
    show max 3 (playerDefAfter 4) = playerDefAfter 4
    rw [playerDefAfter_four]
    norm_num
  · rw [playerDefAfter_four] at hd
    norm_num at hd

/-- The opponent turn keeps the invariant. -/
theorem enemyTurn_inv (r : ℚ) (s : State) (hc : s.consts = state.consts) (h : s.Inv) :
    (enemyTurn r s).Inv := by
  obtain ⟨hp, he, hpi, hei, hd⟩ := h
  obtain ⟨_, _, hbd, _, _, _⟩ := consts_fields s hc
  unfold State.Inv
  rw [enemyTurn_player, enemyTurn_enemy]
  split_ifs with c1 c2 c3
  · refine ⟨hp, valid_heal _ _ _ (by norm_num) he, hpi, ?_, hd⟩
    rcases hei.1 with h0 | h1
    · rw [h0] at c1; exact absurd c1.2 (by decide)
    · exact ⟨Or.inl (by show s.enemy.items.superPotion - 1 = 0; rw [h1]; rfl), hei.2⟩
  · refine ⟨hp, valid_heal _ _ _ (by norm_num) he, hpi, ?_, hd⟩
    rcases hei.2 with h0 | h1
    · rw [h0] at c2; exact absurd c2.2 (by decide)
    · exact ⟨hei.1, Or.inl (by show s.enemy.items.potion - 1 = 0; rw [h1]; rfl)⟩
  · refine ⟨?_, he, hpi, hei, ?_⟩
    · have := valid_applyDebuff s.player .def_ hp (player_floors s hc).1 (player_floors s hc).2
      exact this
    · show PlayerDefValue (max (jsMul s.player.baseDef (fl 0.2)) (jsMul s.player.def_ (fl 0.8)))
      rw [hbd]
      rw [hbd] at c3
      exact playerDefValue_debuff _ hd c3.1
  · exact ⟨valid_damage _ _ (le_trans zero_le_one (one_le_calculateDamage _ _ _)) hp, he, hpi,
      hei, hd⟩

/-- The end of a player handler either leaves both fighters or runs the opponent turn. -/
theorem finishTurn_cases (r : ℚ) (s : State) :
    ((finishTurn r s).player = s.player ∧ (finishTurn r s).enemy = s.enemy) ∨
    ((finishTurn r s).player = (enemyTurn r s).player ∧
      (finishTurn r s).enemy = (enemyTurn r s).enemy) := by
  unfold finishTurn checkEnd
  split_ifs
  · exact Or.inl ⟨rfl, rfl⟩
  · exact Or.inl ⟨rfl, rfl⟩
  · exact Or.inr ⟨rfl, rfl⟩

/-- The end of a player handler keeps the invariant. -/
theorem finishTurn_inv (r : ℚ) (s : State) (hc : s.consts = state.consts) (h : s.Inv) :
    (finishTurn r s).Inv := by
  have he := enemyTurn_inv r s hc h
  unfold State.Inv at *
  rcases finishTurn_cases r s with ⟨h1, h2⟩ | ⟨h1, h2⟩ <;> rw [h1, h2]
  · exact h
  · exact he

/-- Function `handlePlayerMove` keeps the invariant. -/
theorem handlePlayerMove_inv (k : MoveKey) (r : ℚ) (s : State) (hc : s.consts = state.consts)
    (h : s.Inv) : (handlePlayerMove k r s).Inv := by
  obtain ⟨hp, he, hpi, hei, hd⟩ := h
  have hf := enemy_floors s hc
  cases k <;> simp only [handlePlayerMove, moves] <;> apply finishTurn_inv
  · exact hc
  · exact ⟨hp, valid_applyDebuff _ _ he hf.1 hf.2, hpi, hei, hd⟩
  · exact hc
  · exact ⟨hp, valid_damage _ _ (le_trans zero_le_one (one_le_calculateDamage _ _ _)) he, hpi,
      hei, hd⟩
  · exact hc
  · exact ⟨hp, valid_damage _ _ (le_trans zero_le_one (one_le_calculateDamage _ _ _)) he, hpi,
      hei, hd⟩
  · exact hc
  · exact ⟨hp, valid_applyDebuff _ _ he hf.1 hf.2, hpi, hei, hd⟩

/-- Function `handlePlayerItem` keeps the invariant. -/
theorem handlePlayerItem_inv (k : ItemKey) (r : ℚ) (s : State) (hc : s.consts = state.consts)
    (h : s.Inv) : (handlePlayerItem k r s).Inv := by
  obtain ⟨hp, he, hpi, hei, hd⟩ := h
  unfold handlePlayerItem
  split_ifs with h0
  · exact ⟨hp, he, hpi, hei, hd⟩
  · apply finishTurn_inv
    · exact hc
    · cases k
      · refine ⟨valid_heal _ _ _ (by norm_num [itemData]) hp, he, ?_, hei, hd⟩
        rcases hpi.1 with h1 | h1
        · exact absurd h1 h0
        · exact ⟨Or.inl (by show s.player.items.superPotion - 1 = 0; rw [h1]; rfl), hpi.2⟩
      · refine ⟨valid_heal _ _ _ (by norm_num [itemData]) hp, he, ?_, hei, hd⟩
        rcases hpi.2 with h1 | h1
        · exact absurd h1 h0
        · exact ⟨hpi.1, Or.inl (by show s.player.items.potion - 1 = 0; rw [h1]; rfl)⟩

/-- Function `resetBattle` establishes the invariant. -/
theorem resetBattle_inv (s : State) (hc : s.consts = state.consts) : (resetBattle s).Inv := by
  obtain ⟨h1, h2, h3, h4, h5, h6⟩ := consts_fields s hc
  refine ⟨?_, ?_, ⟨Or.inr rfl, Or.inr rfl⟩, ⟨Or.inr rfl, Or.inr rfl⟩, 0, by norm_num, h3⟩
  · simp only [Fighter.Valid, resetBattle, resetStats, h1, h2, h3]
    norm_num
  · simp only [Fighter.Valid, resetBattle, resetStats, h4, h5, h6]
    norm_num

/-- Every state reachable by steps has the constant fields of the literal `state`. -/
theorem steps_consts (s : State) (h : ReachableBySteps s) : s.consts = state.consts := by
  induction h with
  | reset => rfl
  | playerMove k r s _ ih => rw [handlePlayerMove_consts, ih]
  | playerItem k r s _ ih => rw [handlePlayerItem_consts, ih]
  | opponentTurn r s _ ih => rw [enemyTurn_consts, ih]
  | restart s _ ih => rw [resetBattle_consts, ih]

/-- Every state reachable by steps satisfies the invariant. -/
theorem steps_inv (s : State) (h : ReachableBySteps s) : s.Inv := by
  induction h with
  | reset => exact resetBattle_inv state rfl
  | playerMove k r s hs ih => exact handlePlayerMove_inv k r s (steps_consts s hs) ih
  | playerItem k r s hs ih => exact handlePlayerItem_inv k r s (steps_consts s hs) ih
  | opponentTurn r s hs ih => exact enemyTurn_inv r s (steps_consts s hs) ih
  | restart s hs _ => exact resetBattle_inv s (steps_consts s hs)

/-- Every state reachable by clicks is reachable by steps. -/
theorem reachable_steps (s : State) (h : Reachable s) : ReachableBySteps s := by
  induction h with
  | reset => exact .reset
  | click c r s _ ih =>
    cases c with
    | move k =>
      unfold onClick
      simp only []
      split_ifs
      · exact ih
      · exact .playerMove k r s ih
    | item k =>
      unfold onClick
      simp only []
      split_ifs
      · exact ih
      · exact .playerItem k r s ih
    | play => exact .restart s ih

/-- The opponent turn leaves the items of the player. -/
theorem enemyTurn_player_items (r : ℚ) (s : State) :
    (enemyTurn r s).player.items = s.player.items := by
  rw [enemyTurn_player]
  split_ifs <;> rfl

/-- The opponent turn never raises an item count of the enemy. -/
theorem enemyTurn_enemy_items_le (r : ℚ) (s : State) (k : ItemKey) :
    (enemyTurn r s).enemy.items.get k ≤ s.enemy.items.get k := by
  rw [enemyTurn_enemy]
  split_ifs <;> cases k <;> simp [Items.get]

/-- The end of a player handler leaves the items of the player. -/
theorem finishTurn_player_items (r : ℚ) (s : State) :
    (finishTurn r s).player.items = s.player.items := by
  rcases finishTurn_cases r s with ⟨h1, _⟩ | ⟨h1, _⟩ <;> rw [h1]
  exact enemyTurn_player_items r s

/-- The end of a player handler never raises an item count of the enemy. -/
theorem finishTurn_enemy_items_le (r : ℚ) (s : State) (k : ItemKey) :
    (finishTurn r s).enemy.items.get k ≤ s.enemy.items.get k := by
  rcases finishTurn_cases r s with ⟨_, h2⟩ | ⟨_, h2⟩ <;> rw [h2]
  exact enemyTurn_enemy_items_le r s k

/-- A player move keeps the item counts of the player and never raises those of the
enemy. -/
theorem handlePlayerMove_items (m : MoveKey) (r : ℚ) (s : State) (k : ItemKey) :
    (handlePlayerMove m r s).player.items.get k = s.player.items.get k ∧
    (handlePlayerMove m r s).enemy.items.get k ≤ s.enemy.items.get k := by
  cases m <;> simp only [handlePlayerMove, moves] <;>
    exact ⟨by rw [finishTurn_player_items], finishTurn_enemy_items_le _ _ _⟩

/-- The item handler, when the item is held: one unit consumed, the heal applied, then
the end of the turn. -/
theorem handlePlayerItem_eq (k : ItemKey) (r : ℚ) (s : State) (h : s.player.items.get k ≠ 0) :
    handlePlayerItem k r s =
      finishTurn r
        { s with
          busy := true
          player :=
            { s.player with
              hp := min s.player.maxHp (s.player.hp + itemData k)
              items := s.player.items.set k (s.player.items.get k - 1) } } := by
  unfold handlePlayerItem
  rw [if_neg h]
  rfl

/-- Reading an item count after a write. -/
theorem items_get_set (i : Items) (k k' : ItemKey) (v : ℤ) :
    (i.set k v).get k' = if k' = k then v else i.get k' := by
  cases k <;> cases k' <;> rfl

/-- A player item action never raises an item count. -/
theorem handlePlayerItem_items (i : ItemKey) (r : ℚ) (s : State) (k : ItemKey) :
    (handlePlayerItem i r s).player.items.get k ≤ s.player.items.get k ∧
    (handlePlayerItem i r s).enemy.items.get k ≤ s.enemy.items.get k := by
  by_cases h : s.player.items.get i = 0
  · unfold handlePlayerItem
    rw [if_pos h]
    exact ⟨le_refl _, le_refl _⟩
  · rw [handlePlayerItem_eq i r s h]
    refine ⟨?_, finishTurn_enemy_items_le _ _ _⟩
    rw [finishTurn_player_items]
    show (s.player.items.set i (s.player.items.get i - 1)).get k ≤ s.player.items.get k
    rw [items_get_set]
    split_ifs with hk
    · rw [hk]; linarith
    · exact le_refl _

/-- Counts that are `0` or `1` lie between `0` and `1`. -/
theorem zeroOrOne_get (i : Items) (h : i.ZeroOrOne) (k : ItemKey) : 0 ≤ i.get k ∧ i.get k ≤ 1 := by
  cases k
  · rcases h.1 with h0 | h0 <;> simp [Items.get, h0]
  · rcases h.2 with h0 | h0 <;> simp [Items.get, h0]

/-- C12: in every battle state reachable from the reset state by any sequence of player
moves, player items, opponent turns (for any random draws) and resets, both fighters
satisfy `0 ≤ hp ≤ maxHp`, `atk ≥ 0.2 * baseAtk` and `def ≥ 0.2 * baseDef`. -/
theorem reachable_fighters_valid (s : State) (h : ReachableBySteps s) :
    (0 ≤ s.player.hp ∧ s.player.hp ≤ s.player.maxHp ∧ 0.2 * s.player.baseAtk ≤ s.player.atk ∧
      0.2 * s.player.baseDef ≤ s.player.def_) ∧
    (0 ≤ s.enemy.hp ∧ s.enemy.hp ≤ s.enemy.maxHp ∧ 0.2 * s.enemy.baseAtk ≤ s.enemy.atk ∧
      0.2 * s.enemy.baseDef ≤ s.enemy.def_) :=
  ⟨(steps_inv s h).1, (steps_inv s h).2.1⟩

/-- C12 after one Banana Blast from the reset state: the enemy is at `0` hp, within
`[0, maxHp]`. -/
theorem reachable_fighters_valid_after_blast :
    ReachableBySteps (handlePlayerMove .blast 0 (resetBattle state)) ∧
    (handlePlayerMove .blast 0 (resetBattle state)).enemy.hp = 0 ∧
    (0 ≤ (handlePlayerMove .blast 0 (resetBattle state)).enemy.hp ∧
      (handlePlayerMove .blast 0 (resetBattle state)).enemy.hp ≤
        (handlePlayerMove .blast 0 (resetBattle state)).enemy.maxHp) :=
  ⟨.playerMove _ _ _ .reset, by rw [handlePlayerMove_blast_reset],
    (reachable_fighters_valid _ (.playerMove .blast 0 _ .reset)).2.1,
    (reachable_fighters_valid _ (.playerMove .blast 0 _ .reset)).2.2.1⟩

/-- C14: the potions heal `50` and `10`; with none of the item held the item action
leaves the state as it is; otherwise it consumes exactly one unit of that item (the
other count is kept), sets the player `hp` to `min maxHp (hp + heal)` and goes on with
the end of the turn; no player action raises an item count of either fighter; and in
every state reachable from the reset state every item count of both fighters is `0` or
`1`, so each fighter uses each item kind at most once between two resets. -/
theorem handlePlayerItem_consumes_one (itemKey : ItemKey) (r : ℚ) (s : State) :
    (itemData .superPotion = 50 ∧ itemData .potion = 10) ∧
    (s.player.items.get itemKey = 0 → handlePlayerItem itemKey r s = s) ∧
    (s.player.items.get itemKey ≠ 0 →
      handlePlayerItem itemKey r s =
        finishTurn r
          { s with
            busy := true
            player :=
              { s.player with
                hp := min s.player.maxHp (s.player.hp + itemData itemKey)
                items := s.player.items.set itemKey (s.player.items.get itemKey - 1) } } ∧
      (handlePlayerItem itemKey r s).player.items.get itemKey =
        s.player.items.get itemKey - 1 ∧
      ∀ k : ItemKey, k ≠ itemKey →
        (handlePlayerItem itemKey r s).player.items.get k = s.player.items.get k) ∧
    (∀ (c : Click) (k : ItemKey), c ≠ .play →
      (onClick c r s).player.items.get k ≤ s.player.items.get k ∧
      (onClick c r s).enemy.items.get k ≤ s.enemy.items.get k) ∧
    (∀ k : ItemKey, (enemyTurn r s).player.items.get k = s.player.items.get k ∧
      (enemyTurn r s).enemy.items.get k ≤ s.enemy.items.get k) ∧
    (ReachableBySteps s → ∀ k : ItemKey,
      (0 ≤ s.player.items.get k ∧ s.player.items.get k ≤ 1) ∧
      (0 ≤ s.enemy.items.get k ∧ s.enemy.items.get k ≤ 1)) := by
  refine ⟨⟨rfl, rfl⟩, ?_, ?_, ?_, ?_, ?_⟩
  · intro h
    unfold handlePlayerItem
    rw [if_pos h]
  · intro h
    refine ⟨handlePlayerItem_eq itemKey r s h, ?_, ?_⟩
    · rw [handlePlayerItem_eq itemKey r s h, finishTurn_player_items]
      show (s.player.items.set itemKey (s.player.items.get itemKey - 1)).get itemKey = _
      rw [items_get_set, if_pos rfl]
    · intro k hk
      rw [handlePlayerItem_eq itemKey r s h, finishTurn_player_items]
      show (s.player.items.set itemKey (s.player.items.get itemKey - 1)).get k = _
      rw [items_get_set, if_neg hk]
  · intro c k hc
    cases c with
    | move m =>
      unfold onClick
      simp only []
      split_ifs
      · exact ⟨le_refl _, le_refl _⟩
      · exact ⟨le_of_eq (handlePlayerMove_items m r s k).1, (handlePlayerMove_items m r s k).2⟩
    | item i =>
      unfold onClick
      simp only []
      split_ifs
      · exact ⟨le_refl _, le_refl _⟩
      · exact handlePlayerItem_items i r s k
    | play => exact absurd rfl hc
  · intro k
    exact ⟨by rw [enemyTurn_player_items], enemyTurn_enemy_items_le r s k⟩
  · intro h k
    have hi := steps_inv s h
    exact ⟨zeroOrOne_get _ hi.2.2.1 k, zeroOrOne_get _ hi.2.2.2.1 k⟩

/-- C14 from the reset state: the potion is held, one use brings its count to `0`, the
resulting state is reachable, and a second use changes nothing. -/
theorem handlePlayerItem_consumes_one_reset :
    (resetBattle state).player.items.get .potion ≠ 0 ∧
    (handlePlayerItem .potion 0 (resetBattle state)).player.items.get .potion = 0 ∧
    ReachableBySteps (handlePlayerItem .potion 0 (resetBattle state)) ∧
    handlePlayerItem .potion 0 (handlePlayerItem .potion 0 (resetBattle state)) =
      handlePlayerItem .potion 0 (resetBattle state) := by
  have h0 : (resetBattle state).player.items.get .potion ≠ 0 := by decide
  have h1 : (handlePlayerItem .potion 0 (resetBattle state)).player.items.get .potion = 0 := by
    rw [((handlePlayerItem_consumes_one .potion 0 (resetBattle state)).2.2.1 h0).2.1]
    decide
  exact ⟨h0, h1, .playerItem .potion 0 _ .reset,
    (handlePlayerItem_consumes_one .potion 0 _).2.1 h1⟩

/-- The stat after one more debuff, from the stat after `n` debuffs. -/
theorem applyDebuffTimes_stat_succ (n : ℕ) (f : Fighter) (k : StatKey) :
    (applyDebuffTimes (n + 1) f k).stat k =
      max (jsMul (f.base k) (fl 0.2)) (jsMul ((applyDebuffTimes n f k).stat k) (fl 0.8)) := by
  rw [applyDebuffTimes_succ, applyDebuff_stat, applyDebuffTimes_base]

/-- No debuff at all leaves the fighter. -/
theorem applyDebuffTimes_zero (f : Fighter) (k : StatKey) : applyDebuffTimes 0 f k = f := rfl

/-- The defense after one debuff of a fighter with defense `15` and base defense `15`. -/
theorem applyDebuff_def_of_fifteen (f : Fighter) (hd : f.def_ = 15) (hb : f.baseDef = 15) :
    (applyDebuff f .def_).def_ = 12 := by
  show max (jsMul f.baseDef (fl 0.2)) (jsMul f.def_ (fl 0.8)) = 12
  rw [hd, hb, jsMul_15_lit02, jsMul_debuff_one]
  norm_num

/-- The defense after five debuffs of a fighter with defense `15` and base defense `15`:
the binary64 number `4.915200000000002`. -/
theorem applyDebuffTimes_five_of_fifteen (f : Fighter) (hd : f.def_ = 15)
    (hb : f.baseDef = 15) :
    (applyDebuffTimes 5 f .def_).def_ = 1383505805528217 / 281474976710656 := by
  have hs : f.stat .def_ = 15 := hd
  have hbase : f.base .def_ = 15 := hb
  have h1 : (applyDebuffTimes 1 f .def_).stat .def_ = 12 := by
    rw [applyDebuffTimes_stat_succ, applyDebuffTimes_zero, hs, hbase, jsMul_15_lit02,
      jsMul_debuff_one]
    norm_num
  have h2 : (applyDebuffTimes 2 f .def_).stat .def_ = 1351079888211149 / 140737488355328 := by
    rw [applyDebuffTimes_stat_succ, h1, hbase, jsMul_15_lit02, jsMul_debuff_two]
    norm_num
  have h3 : (applyDebuffTimes 3 f .def_).stat .def_ = 4323455642275677 / 562949953421312 := by
    rw [applyDebuffTimes_stat_succ, h2, hbase, jsMul_15_lit02, jsMul_debuff_three]
    norm_num
  have h4 : (applyDebuffTimes 4 f .def_).stat .def_ = 1729382256910271 / 281474976710656 := by
    rw [applyDebuffTimes_stat_succ, h3, hbase, jsMul_15_lit02, jsMul_debuff_four]
    norm_num
  show (applyDebuffTimes 5 f .def_).stat .def_ = _
  rw [applyDebuffTimes_stat_succ, h4, hbase, jsMul_15_lit02, jsMul_debuff_five]
  norm_num

/-- C15 fails on the player of the literal `state` (defense `15`, base `15`): five
debuffs give the binary64 number `4.915200000000002`, not the floor `15 * 0.2 = 3`. -/
theorem applyDebuff_five_times_above_floor :
    state.player.def_ = 15 ∧ state.player.baseDef = 15 ∧
    (applyDebuffTimes 5 state.player .def_).def_ = 1383505805528217 / 281474976710656 ∧
    ¬ ((applyDebuff state.player .def_).def_ = 12 ∧
      (applyDebuffTimes 5 state.player .def_).def_ = 15 * 0.2) ∧
    ¬ ((applyDebuff state.player .def_).def_ = 12 ∧
      (applyDebuffTimes 5 state.player .def_).def_ = jsMul 15 (fl 0.2)) := by
  have h5 := applyDebuffTimes_five_of_fifteen state.player rfl rfl
  refine ⟨rfl, rfl, h5, ?_, ?_⟩
  · rintro ⟨_, h⟩
    rw [h5] at h
    norm_num at h
  · rintro ⟨_, h⟩
    rw [h5, jsMul_15_lit02] at h
    norm_num at h

/-- C15 as amended: from defense `15` with base defense `15`, one `applyDebuff` on `def`
yields `12`, and five successive `applyDebuff` calls on `def` yield a value strictly
above the floor value `15 * 0.2 = 3` (the program computes the floor as `3` exactly). -/
theorem applyDebuff_def_fifteen (f : Fighter) (hd : f.def_ = 15) (hb : f.baseDef = 15) :
    (applyDebuff f .def_).def_ = 12 ∧
    (15 : ℚ) * 0.2 < (applyDebuffTimes 5 f .def_).def_ ∧
    (15 : ℚ) * 0.2 = 3 ∧ jsMul f.baseDef (fl 0.2) = 3 := by
  refine ⟨applyDebuff_def_of_fifteen f hd hb, ?_, by norm_num, ?_⟩
  · rw [applyDebuffTimes_five_of_fifteen f hd hb]
    norm_num
  · rw [hb, jsMul_15_lit02]

/-- C15 as amended, on the player of the literal `state`. -/
theorem applyDebuff_def_fifteen_player :
    state.player.def_ = 15 ∧ state.player.baseDef = 15 ∧
    (applyDebuff state.player .def_).def_ = 12 ∧
    (15 : ℚ) * 0.2 < (applyDebuffTimes 5 state.player .def_).def_ :=
  ⟨rfl, rfl, (applyDebuff_def_fifteen state.player rfl rfl).1,
    (applyDebuff_def_fifteen state.player rfl rfl).2.1⟩

/-- The end of a player handler when both fighters still stand: the opponent turn, then
the lock cleared. -/
theorem finishTurn_of_alive (r : ℚ) (s : State) (he : s.enemy.hp ≠ 0) (hp : s.player.hp ≠ 0) :
    finishTurn r s = { enemyTurn r s with busy := false } := by
  unfold finishTurn checkEnd
  rw [if_neg he, if_neg hp]
  rfl

/-- Chop It Off answered by the defense debuff of the opponent: the enemy attack and the
player defense are each debuffed once. -/
theorem handlePlayerMove_chop_debuffed (r : ℚ) (s : State) (he : 20 < s.enemy.hp)
    (hp : s.player.hp ≠ 0) (hd : s.player.def_ > jsMul s.player.baseDef (fl 0.5))
    (hr : r < fl 0.3) :
    (handlePlayerMove .chop r s).player = applyDebuff s.player .def_ ∧
    (handlePlayerMove .chop r s).enemy = applyDebuff s.enemy .atk := by
  have he0 : ({ s with busy := true, enemy := applyDebuff s.enemy .atk } : State).enemy.hp ≠ 0 := by
    show s.enemy.hp ≠ 0
    intro h0
    rw [h0] at he
    norm_num at he
  have hn1 : ¬ (s.enemy.hp ≤ 20 ∧ s.enemy.items.superPotion > 0) := fun h => absurd h.1 (not_le.2 he)
  have hn2 : ¬ (s.enemy.hp ≤ 10 ∧ s.enemy.items.potion > 0) := fun h =>
    absurd (le_trans h.1 (by norm_num)) (not_le.2 he)
  have hf : handlePlayerMove .chop r s =
      finishTurn r { s with busy := true, enemy := applyDebuff s.enemy .atk } := rfl
  rw [hf, finishTurn_of_alive r _ he0 hp]
  constructor
  · show (enemyTurn r { s with busy := true, enemy := applyDebuff s.enemy .atk }).player = _
    rw [enemyTurn_player]
    have e1 : (applyDebuff s.enemy .atk).hp = s.enemy.hp := rfl
    have e2 : (applyDebuff s.enemy .atk).items = s.enemy.items := rfl
    simp only [e1, e2]
    rw [if_neg hn1, if_neg hn2, if_pos ⟨hd, hr⟩]
    rfl
  · show (enemyTurn r { s with busy := true, enemy := applyDebuff s.enemy .atk }).enemy = _
    rw [enemyTurn_enemy]
    have e1 : (applyDebuff s.enemy .atk).hp = s.enemy.hp := rfl
    have e2 : (applyDebuff s.enemy .atk).items = s.enemy.items := rfl
    simp only [e1, e2]
    rw [if_neg hn1, if_neg hn2]

/-- The fighters after Chop It Off from the reset state with draw `0`. -/
theorem handlePlayerMove_chop_reset :
    (handlePlayerMove .chop 0 (resetBattle state)).player = applyDebuff state.player .def_ ∧
    (handlePlayerMove .chop 0 (resetBattle state)).enemy = applyDebuff state.enemy .atk := by
  rw [resetBattle_state]
  apply handlePlayerMove_chop_debuffed
  · norm_num [state]
  · norm_num [state]
  · show (15 : ℚ) > jsMul 15 (fl 0.5)
    rw [jsMul_15_lit05]
    norm_num
  · rw [fl_lit03]
    norm_num

/-- The defense of the player after two Chop It Off clicks from the reset state, both
answered (draw `0`) by the defense debuff: the binary64 number `9.600000000000001`. -/
theorem handlePlayerMove_chop_twice :
    (handlePlayerMove .chop 0 (handlePlayerMove .chop 0 (resetBattle state))).player.def_ =
      1351079888211149 / 140737488355328 := by
  obtain ⟨h1, h2⟩ := handlePlayerMove_chop_reset
  have hd1 : (handlePlayerMove .chop 0 (resetBattle state)).player.def_ = 12 := by
    rw [h1]
    exact applyDebuff_def_of_fifteen state.player rfl rfl
  have hb1 : (handlePlayerMove .chop 0 (resetBattle state)).player.baseDef = 15 := by
    rw [h1]
    rfl
  have h := (handlePlayerMove_chop_debuffed 0 (handlePlayerMove .chop 0 (resetBattle state))
    (by rw [h2]; show (20 : ℚ) < 50; norm_num)
    (by rw [h1]; show (80 : ℚ) ≠ 0; norm_num)
    (by rw [hd1, hb1, jsMul_15_lit05]; norm_num)
    (by rw [fl_lit03]; norm_num)).1
  rw [h]
  show max (jsMul (handlePlayerMove .chop 0 (resetBattle state)).player.baseDef (fl 0.2))
    (jsMul (handlePlayerMove .chop 0 (resetBattle state)).player.def_ (fl 0.8)) = _
  rw [hd1, hb1, jsMul_15_lit02, jsMul_debuff_two]
  norm_num

/-- C18 fails after two Chop It Off clicks from the reset state, both answered (draw
`0`) by the defense debuff of the opponent: the state is reachable and the player `def`
is the binary64 product `12 * 0.8 = 9.600000000000001`, none of `15`, `12`, `9.6`,
`7.68`, `6.144`. -/
theorem reachable_player_def_off_list :
    ReachableBySteps (handlePlayerMove .chop 0 (handlePlayerMove .chop 0 (resetBattle state))) ∧
    Reachable (onClick (.move .chop) 0 (onClick (.move .chop) 0 (resetBattle state))) ∧
    onClick (.move .chop) 0 (onClick (.move .chop) 0 (resetBattle state)) =
      handlePlayerMove .chop 0 (handlePlayerMove .chop 0 (resetBattle state)) ∧
    (handlePlayerMove .chop 0 (handlePlayerMove .chop 0 (resetBattle state))).player.def_ =
      1351079888211149 / 140737488355328 ∧
    ¬ ((handlePlayerMove .chop 0 (handlePlayerMove .chop 0 (resetBattle state))).player.def_ = 15 ∨
      (handlePlayerMove .chop 0 (handlePlayerMove .chop 0 (resetBattle state))).player.def_ = 12 ∨
      (handlePlayerMove .chop 0 (handlePlayerMove .chop 0 (resetBattle state))).player.def_ = 9.6 ∨
      (handlePlayerMove .chop 0 (handlePlayerMove .chop 0 (resetBattle state))).player.def_ = 7.68 ∨
      (handlePlayerMove .chop 0 (handlePlayerMove .chop 0 (resetBattle state))).player.def_ =
        6.144) := by
  have hb : (handlePlayerMove .chop 0 (resetBattle state)).busy = false := by
    cases h : moves .chop <;> simp only [handlePlayerMove, h, finishTurn]
  have hc : onClick (.move .chop) 0 (onClick (.move .chop) 0 (resetBattle state)) =
      handlePlayerMove .chop 0 (handlePlayerMove .chop 0 (resetBattle state)) := by
    have h1 : onClick (.move .chop) 0 (resetBattle state) =
        handlePlayerMove .chop 0 (resetBattle state) := rfl
    rw [h1]
    show (if (handlePlayerMove .chop 0 (resetBattle state)).busy = true then
        handlePlayerMove .chop 0 (resetBattle state)
      else handlePlayerMove .chop 0 (handlePlayerMove .chop 0 (resetBattle state))) = _
    rw [if_neg (by rw [hb]; decide)]
  refine ⟨.playerMove _ _ _ (.playerMove _ _ _ .reset), .click _ _ _ (.click _ _ _ .reset), hc,
    handlePlayerMove_chop_twice, ?_⟩
  rw [handlePlayerMove_chop_twice]
  norm_num

/-- C18 as amended: in every battle state reachable from the reset state the player `def`
is one of the five values obtained from `15` by at most four binary64 multiplications by
`0.8` (`15`, `12`, `9.600000000000001`, `7.6800000000000015`, `6.144000000000002`: the
last three lie above `9.6`, `7.68`, `6.144` by less than `10⁻¹⁴`), hence strictly above
`0.4 * baseDef` and above the `20%` floor of `clampStat`; at most four debuffs separate it
from `15`, and at the fifth value no opponent turn changes it. -/
theorem reachable_player_def (s : State) (h : ReachableBySteps s) :
    (s.player.def_ = 15 ∨ s.player.def_ = 12 ∨
      s.player.def_ = 1351079888211149 / 140737488355328 ∨
      s.player.def_ = 4323455642275677 / 562949953421312 ∨
      s.player.def_ = 1729382256910271 / 281474976710656) ∧
    ((9.6 : ℚ) < 1351079888211149 / 140737488355328 ∧
      (1351079888211149 / 140737488355328 : ℚ) < 9.6 + 1 / 10 ^ 14 ∧
      (7.68 : ℚ) < 4323455642275677 / 562949953421312 ∧
      (4323455642275677 / 562949953421312 : ℚ) < 7.68 + 1 / 10 ^ 14 ∧
      (6.144 : ℚ) < 1729382256910271 / 281474976710656 ∧
      (1729382256910271 / 281474976710656 : ℚ) < 6.144 + 1 / 10 ^ 14) ∧
    0.4 * s.player.baseDef < s.player.def_ ∧
    0.2 * s.player.baseDef < s.player.def_ ∧
    jsMul s.player.baseDef (fl 0.2) < s.player.def_ ∧
    (∃ k : ℕ, k ≤ 4 ∧ s.player.def_ = playerDefAfter k) ∧
    (s.player.def_ = playerDefAfter 4 →
      ∀ r : ℚ, (enemyTurn r s).player.def_ = playerDefAfter 4) := by
  have hd := (steps_inv s h).2.2.2.2
  obtain ⟨_, _, hbd, _, _, _⟩ := consts_fields s (steps_consts s h)
  have hv : s.player.def_ = 15 ∨ s.player.def_ = 12 ∨
      s.player.def_ = 1351079888211149 / 140737488355328 ∨
      s.player.def_ = 4323455642275677 / 562949953421312 ∨
      s.player.def_ = 1729382256910271 / 281474976710656 := by
    obtain ⟨k, hk, hk2⟩ := hd
    interval_cases k
    · exact Or.inl hk2
    · exact Or.inr (Or.inl (hk2.trans playerDefAfter_one))
    · exact Or.inr (Or.inr (Or.inl (hk2.trans playerDefAfter_two)))
    · exact Or.inr (Or.inr (Or.inr (Or.inl (hk2.trans playerDefAfter_three))))
    · exact Or.inr (Or.inr (Or.inr (Or.inr (hk2.trans playerDefAfter_four))))
  refine ⟨hv, by norm_num, ?_, ?_, ?_, hd, ?_⟩
  · rw [hbd]
    rcases hv with h | h | h | h | h <;> rw [h] <;> norm_num
  · rw [hbd]
    rcases hv with h | h | h | h | h <;> rw [h] <;> norm_num
  · rw [hbd, jsMul_15_lit02]
    rcases hv with h | h | h | h | h <;> rw [h] <;> norm_num
  · intro h6 r
    rw [enemyTurn_player]
    have hn : ¬ (s.player.def_ > jsMul s.player.baseDef (fl 0.5) ∧ r < fl 0.3) := by
      rw [hbd, h6, playerDefAfter_four, jsMul_15_lit05]
      norm_num
    split_ifs <;> first | exact h6

/-- C18 as amended, after Chop It Off from the reset state with draw `0`: the opponent
has debuffed the player defense to `12`, above `0.4 * baseDef`. -/
theorem reachable_player_def_after_debuff :
    ReachableBySteps (handlePlayerMove .chop 0 (resetBattle state)) ∧
    (handlePlayerMove .chop 0 (resetBattle state)).player.def_ = 12 ∧
    0.4 * (handlePlayerMove .chop 0 (resetBattle state)).player.baseDef <
      (handlePlayerMove .chop 0 (resetBattle state)).player.def_ := by
  refine ⟨.playerMove _ _ _ .reset, ?_,
    (reachable_player_def _ (.playerMove .chop 0 _ .reset)).2.2.1⟩
  rw [handlePlayerMove_chop_reset.1]
  exact applyDebuff_def_of_fifteen state.player rfl rfl

end Battle

/-! ## Offer-lifecycle client: properties -/

namespace Client

/-- Function `refreshOffers` only issues event queries and detail calls. -/
theorem refreshOffers_calls (cfg : AppConfig) (env : Env) (w : World) (fromButton : Bool)
    (s : State) (c : Call) (hc : c ∈ (refreshOffers cfg env w fromButton s).calls) :
    (∃ start, c = .queryFilter start) ∨ ∃ id, c = .getOfferDetails id := by
  have hd : ∀ logs : List ℕ, c ∈ detailCalls logs → ∃ id, c = .getOfferDetails id := by
    intro logs hmem
    simp only [detailCalls, List.mem_filterMap] at hmem
    obtain ⟨id, _, hid⟩ := hmem
    split_ifs at hid
    exact ⟨id, (Option.some.inj hid).symm⟩
  unfold refreshOffers at hc
  cases hrc : s.readContract with
  | none => simp [hrc] at hc
  | some rc =>
    by_cases hr : s.refreshing = true
    · simp [hrc, hr] at hc
    · cases hq : w.queryFilter (startBlock cfg env) with
      | error e =>
        simp [hrc, hr, hq] at hc
        exact Or.inl ⟨_, hc⟩
      | ok logs =>
        cases hf : fetchOffers w 0 logs with
        | error e =>
          simp [hrc, hr, hq, hf] at hc
          exact hc.imp (fun h => ⟨_, h⟩) (hd logs)
        | ok offers =>
          simp [hrc, hr, hq, hf] at hc
          exact hc.imp (fun h => ⟨_, h⟩) (hd logs)

/-- Function `refreshOffers` never touches the cached fee. -/
theorem refreshOffers_cachedFee (cfg : AppConfig) (env : Env) (w : World) (fromButton : Bool)
    (s : State) : (refreshOffers cfg env w fromButton s).state.cachedFee = s.cachedFee := by
  unfold refreshOffers
  cases hrc : s.readContract with
  | none => rfl
  | some rc =>
    by_cases hr : s.refreshing = true
    · simp [hr]
    · cases hq : w.queryFilter (startBlock cfg env) with
      | error e => simp [hr, hq]
      | ok logs =>
        cases hf : fetchOffers w 0 logs with
        | error e => simp [hr, hq, hf]
        | ok offers => simp [hr, hq, hf]

/-- The offer list left by a refresh whose queries all succeed. -/
theorem refreshOffers_offers (cfg : AppConfig) (env : Env) (w : World) (fromButton : Bool)
    (s : State) (logs : List ℕ) (fetched : List Offer)
    (hrc : s.readContract ≠ none) (hr : s.refreshing = false)
    (hq : w.queryFilter (startBlock cfg env) = .ok logs)
    (hf : fetchOffers w 0 logs = .ok fetched) :
    (refreshOffers cfg env w fromButton s).state.offers =
      sortOffers (fetched.filter (fun offer => offer.isActive)) := by
  unfold refreshOffers
  cases hc : s.readContract with
  | none => exact absurd hc hrc
  | some c => simp [hr, hq, hf]

/-- A successful `zipItems` pairs every contract with the id at its position. -/
theorem zipItems_ok (contracts : List String) :
    ∀ (ids : List ℕ) (items : List NftItem), zipItems contracts ids = .ok items →
      items = List.zipWith (fun address tokenId => { contract := address, tokenId := tokenId })
        contracts ids ∧
      items.length = contracts.length := by
  induction contracts with
  | nil =>
    intro ids items h
    simp only [zipItems, Except.ok.injEq] at h
    subst h
    exact ⟨by simp, rfl⟩
  | cons address contracts ih =>
    intro ids items h
    cases ids with
    | nil => simp [zipItems] at h
    | cons tokenId ids =>
      unfold zipItems at h
      split at h
      · rename_i rest hrest
        simp only [Except.ok.injEq] at h
        subst h
        obtain ⟨h1, h2⟩ := ih ids rest hrest
        refine ⟨?_, by simp [h2]⟩
        rw [List.zipWith_cons_cons, ← h1]
      · cases h

/-- A successful `mapOffer` returns the projection of the details: the id passed in, the
creator, the recipient, the items of both sides paired by position, the expiry, the
active flag, and the expiry flag `expiresAt ≤ now`. -/
theorem mapOffer_ok (now offerId : ℕ) (raw : RawOffer) (offer : Offer)
    (h : mapOffer now offerId raw = .ok offer) :
    offer =
      { offerId := offerId, creator := raw.creator, recipient := raw.recipient,
        tokenA := List.zipWith (fun address tokenId => { contract := address, tokenId := tokenId })
          raw.tokenAContracts raw.tokenAIds,
        tokenB := List.zipWith (fun address tokenId => { contract := address, tokenId := tokenId })
          raw.tokenBContracts raw.tokenBIds,
        expiresAt := raw.expiresAt, isActive := raw.isActive,
        isExpired := decide (raw.expiresAt ≤ now) } ∧
    offer.tokenA.length = raw.tokenAContracts.length ∧
    offer.tokenB.length = raw.tokenBContracts.length := by
  unfold mapOffer at h
  split at h
  · cases h
  · rename_i expiresAt hexp
    have hexp2 : expiresAt = raw.expiresAt := by
      unfold toNumber at hexp
      split_ifs at hexp
      exact (Except.ok.inj hexp).symm
    subst hexp2
    simp only [] at h
    split at h
    · cases h
    · rename_i tokenA hA
      split at h
      · cases h
      · rename_i tokenB hB
        simp only [Except.ok.injEq] at h
        subst h
        obtain ⟨a1, a2⟩ := zipItems_ok _ _ _ hA
        obtain ⟨b1, b2⟩ := zipItems_ok _ _ _ hB
        refine ⟨?_, a2, b2⟩
        rw [← a1, ← b1]

/-- Each fetched offer is the projection of the details the ledger returned for the log at
its position. -/
theorem fetchOffers_getElem (w : World) (logs : List ℕ) :
    ∀ (j : ℕ) (fetched : List Offer), fetchOffers w j logs = .ok fetched →
      fetched.length = logs.length ∧
      ∀ (i id : ℕ), logs[i]? = some id → ∃ raw, w.getOfferDetails id = .ok raw ∧
        fetched[i]? = some
          { offerId := id, creator := raw.creator, recipient := raw.recipient,
            tokenA := List.zipWith
              (fun address tokenId => { contract := address, tokenId := tokenId })
              raw.tokenAContracts raw.tokenAIds,
            tokenB := List.zipWith
              (fun address tokenId => { contract := address, tokenId := tokenId })
              raw.tokenBContracts raw.tokenBIds,
            expiresAt := raw.expiresAt, isActive := raw.isActive,
            isExpired := decide (raw.expiresAt ≤ w.now (j + i)) } := by
  induction logs with
  | nil =>
    intro j fetched h
    simp only [fetchOffers, Except.ok.injEq] at h
    subst h
    exact ⟨rfl, fun i id hi => by simp at hi⟩
  | cons id0 logs ih =>
    intro j fetched h
    unfold fetchOffers at h
    split at h
    · cases h
    · rename_i offerId hid
      split at h
      · cases h
      · rename_i details hdet
        split at h
        · cases h
        · rename_i offer hoff
          split at h
          · cases h
          · rename_i offers hrest
            simp only [Except.ok.injEq] at h
            subst h
            have hid2 : offerId = id0 := by
              unfold toNumber at hid
              split_ifs at hid
              exact (Except.ok.inj hid).symm
            subst hid2
            obtain ⟨hlen, hget⟩ := ih _ _ hrest
            refine ⟨by simp [hlen], ?_⟩
            intro i id hi
            cases i with
            | zero =>
              simp only [List.getElem?_cons_zero, Option.some.injEq] at hi
              subst hi
              refine ⟨details, hdet, ?_⟩
              simp only [List.getElem?_cons_zero, Option.some.injEq, Nat.add_zero]
              exact (mapOffer_ok _ _ _ _ hoff).1
            | succ i =>
              simp only [List.getElem?_cons_succ] at hi
              obtain ⟨raw, hraw, hoffer⟩ := hget i id hi
              refine ⟨raw, hraw, ?_⟩
              simp only [List.getElem?_cons_succ]
              rw [hoffer]
              have hji : j + 1 + i = j + (i + 1) := by omega
              rw [hji]

/-- C6: when `state.refreshing` is set, `refreshOffers` leaves the whole state unchanged
and issues no call at all (no event query, no detail call). -/
theorem refreshOffers_in_flight_noop (cfg : AppConfig) (env : Env) (w : World)
    (fromButton : Bool) (s : State) (h : s.refreshing = true) :
    (refreshOffers cfg env w fromButton s).state = s ∧
    (refreshOffers cfg env w fromButton s).calls = [] := by
  unfold refreshOffers
  cases s.readContract with
  | none => exact ⟨rfl, rfl⟩
  | some c => simp [h]

/-- C6 on a state with a refresh in flight. -/
theorem refreshOffers_in_flight_noop_sample :
    ({ sampleReader with refreshing := true } : State).refreshing = true ∧
    (refreshOffers sampleConfig sampleEnv (sampleWorld 2) true
      { sampleReader with refreshing := true }).state = { sampleReader with refreshing := true } ∧
    (refreshOffers sampleConfig sampleEnv (sampleWorld 2) true
      { sampleReader with refreshing := true }).calls = [] :=
  ⟨rfl, refreshOffers_in_flight_noop sampleConfig sampleEnv (sampleWorld 2) true
    { sampleReader with refreshing := true } rfl⟩

/-- C7: after a refresh whose event query and detail calls all succeed, the fetched offers
are, position by position, the full projections of the details the ledger returned for
the logs (id, creator, recipient, the items of both sides paired by position, expiry,
active flag, and the expiry flag `expiresAt ≤ now`); the local list is a permutation of
the fetched offers whose active flag is set (each kept once, none added), it is sorted by
non-decreasing expiry, it is the same whatever state (and list) the refresh started
from, and the refreshing flag is cleared. -/
theorem refreshOffers_active_sorted (cfg : AppConfig) (env : Env) (w : World)
    (fromButton : Bool) (s : State) (logs : List ℕ) (fetched : List Offer)
    (hrc : s.readContract ≠ none) (hr : s.refreshing = false)
    (hq : w.queryFilter (startBlock cfg env) = .ok logs)
    (hf : fetchOffers w 0 logs = .ok fetched) :
    fetched.length = logs.length ∧
    (∀ (i id : ℕ), logs[i]? = some id → ∃ raw, w.getOfferDetails id = .ok raw ∧
      fetched[i]? = some
        { offerId := id, creator := raw.creator, recipient := raw.recipient,
          tokenA := List.zipWith
            (fun address tokenId => { contract := address, tokenId := tokenId })
            raw.tokenAContracts raw.tokenAIds,
          tokenB := List.zipWith
            (fun address tokenId => { contract := address, tokenId := tokenId })
            raw.tokenBContracts raw.tokenBIds,
          expiresAt := raw.expiresAt, isActive := raw.isActive,
          isExpired := decide (raw.expiresAt ≤ w.now i) }) ∧
    ((refreshOffers cfg env w fromButton s).state.offers).Perm
      (fetched.filter (fun offer => offer.isActive)) ∧
    ((refreshOffers cfg env w fromButton s).state.offers).Sorted
      (fun a b => a.expiresAt ≤ b.expiresAt) ∧
    (∀ (t : State) (b : Bool), t.readContract ≠ none → t.refreshing = false →
      (refreshOffers cfg env w b t).state.offers =
        (refreshOffers cfg env w fromButton s).state.offers) ∧
    (refreshOffers cfg env w fromButton s).state.refreshing = false := by
  have hoffers := refreshOffers_offers cfg env w fromButton s logs fetched hrc hr hq hf
  obtain ⟨hlen, hget⟩ := fetchOffers_getElem w logs 0 fetched hf
  refine ⟨hlen, ?_, ?_, ?_, ?_, ?_⟩
  · intro i id hi
    obtain ⟨raw, hraw, hoffer⟩ := hget i id hi
    rw [Nat.zero_add] at hoffer
    exact ⟨raw, hraw, hoffer⟩
  · rw [hoffers]
    exact List.perm_insertionSort _ _
  · rw [hoffers]
    haveI : IsTotal Offer (fun a b => a.expiresAt ≤ b.expiresAt) := ⟨fun a b => le_total _ _⟩
    haveI : IsTrans Offer (fun a b => a.expiresAt ≤ b.expiresAt) :=
      ⟨fun _ _ _ hab hbc => le_trans hab hbc⟩
    exact List.sorted_insertionSort _ _
  · intro t b htc htr
    rw [hoffers, refreshOffers_offers cfg env w b t logs fetched htc htr hq hf]
  · unfold refreshOffers
    cases hc : s.readContract with
    | none => exact absurd hc hrc
    | some c => simp [hr, hq, hf]

/-- C7 on a ledger with three offers, one inactive: the list holds the full projections of
offers 3 and 1, in that order, and the first fetched offer is the projection of the
details of log 1. -/
theorem refreshOffers_active_sorted_sample :
    (refreshOffers sampleConfig sampleEnv (sampleWorld 2) false sampleReader).state.offers =
      [{ offerId := 3, creator := "0xA1", recipient := addressZero,
         tokenA := [{ contract := "0xN1", tokenId := 1 }],
         tokenB := [{ contract := "0xN2", tokenId := 2 }],
         expiresAt := 200, isActive := true, isExpired := false },
       { offerId := 1, creator := "0xA1", recipient := addressZero,
         tokenA := [{ contract := "0xN1", tokenId := 1 }],
         tokenB := [{ contract := "0xN2", tokenId := 2 }],
         expiresAt := 300, isActive := true, isExpired := false }] ∧
    ((refreshOffers sampleConfig sampleEnv (sampleWorld 2) false sampleReader).state.offers).Sorted
      (fun a b => a.expiresAt ≤ b.expiresAt) :=
  ⟨rfl, (refreshOffers_active_sorted sampleConfig sampleEnv (sampleWorld 2) false sampleReader
    [1, 2, 3] _ (by decide) rfl rfl rfl).2.2.2.1⟩

/-- The action block of a card: one cancel button for the creator, one accept button otherwise. -/
theorem createOfferCard_actions_eq (env : Env) (s : State) (offer : Offer) :
    (createOfferCard env s offer).actions =
      if isMine env s offer = true then
        [{ className := "secondary",
           textContent := if offer.isExpired then "Cancel (expired)" else "Cancel Offer",
           disabled := false,
           onClick := if offer.isExpired then .cancelExpiredOffer offer.offerId
                      else .cancelOffer offer.offerId }]
      else
        [{ className := "primary", textContent := "Accept Offer",
           disabled := offer.isExpired || s.contract.isNone,
           onClick := .acceptOffer offer.offerId }] := by
  unfold createOfferCard
  cases isMine env s offer <;> simp

/-- The test `isMine` holds exactly when a non-empty account equals the creator up to case. -/
theorem isMine_iff (env : Env) (s : State) (offer : Offer) :
    isMine env s offer = true ↔
      ∃ account, s.account = some account ∧ account ≠ "" ∧
        env.toLowerCase offer.creator = env.toLowerCase account := by
  unfold isMine
  cases s.account with
  | none => simp
  | some a => simp

/-- C8: an Accept button that is enabled appears only when the offer is not expired and
no non-empty viewer account equals the creator up to case; a Cancel button is present
exactly when the viewer account equals the creator up to case; a button running
`cancelExpiredOffer` implies the offer is expired and one running `cancelOffer` implies
it is not, both on the offer's own id. -/
theorem createOfferCard_actions (env : Env) (s : State) (offer : Offer) :
    (∀ b ∈ (createOfferCard env s offer).actions, (∃ id, b.onClick = .acceptOffer id) →
      b.disabled = false →
      offer.isExpired = false ∧
        ¬ ∃ account, s.account = some account ∧ account ≠ "" ∧
          env.toLowerCase offer.creator = env.toLowerCase account) ∧
    ((∃ b ∈ (createOfferCard env s offer).actions,
        b.onClick = .cancelOffer offer.offerId ∨ b.onClick = .cancelExpiredOffer offer.offerId) ↔
      ∃ account, s.account = some account ∧ account ≠ "" ∧
        env.toLowerCase offer.creator = env.toLowerCase account) ∧
    (∀ b ∈ (createOfferCard env s offer).actions, ∀ id,
      (b.onClick = .cancelExpiredOffer id → id = offer.offerId ∧ offer.isExpired = true) ∧
      (b.onClick = .cancelOffer id → id = offer.offerId ∧ offer.isExpired = false)) := by
  rw [← isMine_iff, createOfferCard_actions_eq]
  cases hm : isMine env s offer <;> cases he : offer.isExpired
  · refine ⟨?_, ?_, ?_⟩
    · intro b hb _ hdis
      simp at hb
      subst hb
      simp
    · simp
    · intro b hb id
      simp at hb
      subst hb
      simp
  · refine ⟨?_, ?_, ?_⟩
    · intro b hb _ hdis
      simp at hb
      subst hb
      simp at hdis
    · simp
    · intro b hb id
      simp at hb
      subst hb
      simp
  · refine ⟨?_, ?_, ?_⟩
    · intro b hb hacc
      simp at hb
      subst hb
      simp at hacc
    · simp
    · intro b hb id
      simp at hb
      subst hb
      simp
      exact fun h => h.symm
  · refine ⟨?_, ?_, ?_⟩
    · intro b hb hacc
      simp at hb
      subst hb
      simp at hacc
    · simp
    · intro b hb id
      simp at hb
      subst hb
      simp
      exact fun h => h.symm

/-- C8 on the sample session: the card of another account's unexpired offer carries one
enabled Accept button, and the offer is indeed unexpired and not the viewer's. -/
theorem createOfferCard_actions_sample :
    (createOfferCard sampleEnv sampleConnected sampleOffer).actions =
      [{ className := "primary", textContent := "Accept Offer", disabled := false,
         onClick := .acceptOffer 3 }] ∧
    (sampleOffer.isExpired = false ∧
      ¬ ∃ account, sampleConnected.account = some account ∧ account ≠ "" ∧
        sampleEnv.toLowerCase sampleOffer.creator = sampleEnv.toLowerCase account) :=
  ⟨by decide,
    (createOfferCard_actions sampleEnv sampleConnected sampleOffer).1
      { className := "primary", textContent := "Accept Offer", disabled := false,
        onClick := .acceptOffer 3 } (by decide) ⟨3, rfl⟩ rfl⟩

/-- A value is truthy exactly when it is a non-empty string. -/
theorem truthy_iff (x : Option String) : truthy x = true ↔ ∃ str, x = some str ∧ str ≠ "" := by
  cases x with
  | none => simp [truthy]
  | some str => simp [truthy]

/-- C9 fails for a two-line generic message: `parseEthersError` returns its first line
`"a"`, while the first non-empty candidate is the whole message. -/
theorem parseEthersError_multiLine_message :
    parseEthersError (some multiLineError) = some "a" ∧
    firstNonEmpty multiLineError.candidates = multiLineError.message ∧
    parseEthersError (some multiLineError) ≠ firstNonEmpty multiLineError.candidates := by
  decide

/-- C9 as amended: a falsy thrown value gives `null`; otherwise the result is the first
non-empty one of `error.error.message`, `error.data.message`, `error.reason`, and, when
those are all empty, the first line of a non-empty `error.message`; the result is
`null` exactly when none of the four is non-empty. -/
theorem parseEthersError_precedence (e : EthersError) :
    parseEthersError none = none ∧
    parseEthersError (some e) =
      (match firstNonEmpty [e.error.bind (fun p => p.message), e.data.bind (fun p => p.message),
          e.reason] with
        | some msg => some msg
        | none => if truthy e.message then e.message.map firstLine else none) ∧
    (parseEthersError (some e) = none ↔ firstNonEmpty e.candidates = none) := by
  have hsome : ∀ x : Option String, truthy x = true → ∀ y : Option String,
      x = (match x with
        | some msg => some msg
        | none => y) := by
    intro x hx y
    obtain ⟨m, hm, _⟩ := (truthy_iff x).1 hx
    rw [hm]
  have hne : ∀ x : Option String, truthy x = true → (x = none ↔ x = none) := fun _ _ => Iff.rfl
  refine ⟨rfl, ?_, ?_⟩
  · unfold parseEthersError
    simp only [firstNonEmpty]
    by_cases h1 : truthy (e.error.bind (fun p => p.message)) = true
    · rw [if_pos h1, if_pos h1]
      exact hsome _ h1 _
    · rw [if_neg h1, if_neg h1]
      by_cases h2 : truthy (e.data.bind (fun p => p.message)) = true
      · rw [if_pos h2, if_pos h2]
        exact hsome _ h2 _
      · rw [if_neg h2, if_neg h2]
        by_cases h3 : truthy e.reason = true
        · rw [if_pos h3, if_pos h3]
          exact hsome _ h3 _
        · rw [if_neg h3, if_neg h3]
  · unfold parseEthersError
    simp only [firstNonEmpty, EthersError.candidates]
    by_cases h1 : truthy (e.error.bind (fun p => p.message)) = true
    · rw [if_pos h1, if_pos h1]
    · rw [if_neg h1, if_neg h1]
      by_cases h2 : truthy (e.data.bind (fun p => p.message)) = true
      · rw [if_pos h2, if_pos h2]
      · rw [if_neg h2, if_neg h2]
        by_cases h3 : truthy e.reason = true
        · rw [if_pos h3, if_pos h3]
        · rw [if_neg h3, if_neg h3]
          by_cases h4 : truthy e.message = true
          · rw [if_pos h4, if_pos h4]
            obtain ⟨m, hm, _⟩ := (truthy_iff _).1 h4
            simp [hm]
          · rw [if_neg h4, if_neg h4]

/-- C10 fails when the fee changes: with fee `1` cached by `updateFee` and a fee read
returning `2`, the create call is paid `2`. -/
theorem handleCreateOffer_pays_fresh_fee :
    (updateFee (sampleWorld 1) sampleConnected).state.cachedFee = some 1 ∧
    Call.createMultiSwapOffer
        { offerContracts := ["0xN1"], offerTokenIds := [7], requestContracts := ["0xN2"],
          requestTokenIds := [7], durationSeconds := 86400, value := 2 } ∈
      (handleCreateOffer sampleConfig sampleEnv (sampleWorld 2) sampleForm
        (updateFee (sampleWorld 1) sampleConnected).state).calls ∧
    ¬ ∀ args : CreateArgs,
      Call.createMultiSwapOffer args ∈
          (handleCreateOffer sampleConfig sampleEnv (sampleWorld 2) sampleForm
            (updateFee (sampleWorld 1) sampleConnected).state).calls →
        some args.value = (updateFee (sampleWorld 1) sampleConnected).state.cachedFee := by
  have hmem : Call.createMultiSwapOffer
        { offerContracts := ["0xN1"], offerTokenIds := [7], requestContracts := ["0xN2"],
          requestTokenIds := [7], durationSeconds := 86400, value := 2 } ∈
      (handleCreateOffer sampleConfig sampleEnv (sampleWorld 2) sampleForm
        (updateFee (sampleWorld 1) sampleConnected).state).calls := by decide
  refine ⟨rfl, hmem, fun h => ?_⟩
  have h2 := h _ hmem
  revert h2
  decide

/-- C10 as amended: for a connected session, a valid form and a fee read returning `fee`,
`handleCreateOffer` issues the create call with payment `fee`, no create call with any
other payment, and leaves `fee` in `state.cachedFee`, whatever was cached before. -/
theorem handleCreateOffer_payment (cfg : AppConfig) (env : Env) (w : World) (form : Form)
    (s : State) (offers requests : NftInputs) (seconds : ℤ) (fee : ℕ)
    (hc : s.contract ≠ none) (hv : validateForm env form = .ok (offers, requests, seconds))
    (hfee : w.fee = .ok fee) :
    Call.createMultiSwapOffer
        { offerContracts := offers.contracts, offerTokenIds := offers.tokenIds,
          requestContracts := requests.contracts, requestTokenIds := requests.tokenIds,
          durationSeconds := seconds, value := fee } ∈
      (handleCreateOffer cfg env w form s).calls ∧
    (∀ args : CreateArgs, Call.createMultiSwapOffer args ∈ (handleCreateOffer cfg env w form s).calls →
      args.value = fee) ∧
    (handleCreateOffer cfg env w form s).state.cachedFee = some fee := by
  have href : ∀ (t : State) (args : CreateArgs),
      Call.createMultiSwapOffer args ∉ (refreshOffers cfg env w false t).calls := by
    intro t args hmem
    rcases refreshOffers_calls cfg env w false t _ hmem with ⟨_, h⟩ | ⟨_, h⟩ <;> cases h
  unfold handleCreateOffer
  cases hcon : s.contract with
  | none => exact absurd hcon hc
  | some c =>
    simp only [hv, hfee]
    cases hcr : w.createMultiSwapOffer
        { offerContracts := offers.contracts, offerTokenIds := offers.tokenIds,
          requestContracts := requests.contracts, requestTokenIds := requests.tokenIds,
          durationSeconds := seconds, value := fee } with
    | error err => simp [createFailed]
    | ok txHash =>
      dsimp only
      cases hw : w.wait txHash with
      | error err => simp [createFailed]
      | ok u =>
        dsimp only
        refine ⟨by simp, ?_, refreshOffers_cachedFee _ _ _ _ _⟩
        intro args hmem
        simp only [List.cons_append, List.nil_append, List.mem_cons, Call.createMultiSwapOffer.injEq,
          reduceCtorEq, false_or] at hmem
        rcases hmem with h | h
        · rw [h]
        · exact absurd h (href _ _)

/-- C10 as amended, on the sample session with fee `1` cached and fee `2` read. -/
theorem handleCreateOffer_payment_sample :
    sampleConnected.contract ≠ none ∧
    (∀ args : CreateArgs,
      Call.createMultiSwapOffer args ∈
          (handleCreateOffer sampleConfig sampleEnv (sampleWorld 2) sampleForm
            (updateFee (sampleWorld 1) sampleConnected).state).calls →
        args.value = 2) ∧
    (handleCreateOffer sampleConfig sampleEnv (sampleWorld 2) sampleForm
      (updateFee (sampleWorld 1) sampleConnected).state).state.cachedFee = some 2 :=
  ⟨by decide,
    (handleCreateOffer_payment sampleConfig sampleEnv (sampleWorld 2) sampleForm
      (updateFee (sampleWorld 1) sampleConnected).state ⟨["0xN1"], [7]⟩ ⟨["0xN2"], [7]⟩ 86400 2
      (by decide) rfl rfl).2⟩

/-- A successful `readNftInputs` returns the normalised addresses and the token ids of
the non-blank rows in row order, and every non-blank row is well formed. -/
theorem readNftInputs_ok (env : Env) (rows : List NftRow) :
    ∀ inputs : NftInputs, readNftInputs env rows = .ok inputs →
      inputs.contracts =
        (nonBlankRows env rows).map (fun row => env.getAddress (env.trim row.contractValue)) ∧
      List.Forall₂ (fun row tokenId => env.bigNumberFrom (env.trim row.tokenValue) = .ok tokenId)
        (nonBlankRows env rows) inputs.tokenIds ∧
      ∀ row ∈ nonBlankRows env rows, NftRow.WellFormed env row := by
  induction rows with
  | nil =>
    intro inputs h
    simp only [readNftInputs, Except.ok.injEq] at h
    subst h
    exact ⟨rfl, List.Forall₂.nil, fun _ hr => absurd hr (List.not_mem_nil _)⟩
  | cons row rows ih =>
    intro inputs h
    unfold readNftInputs at h
    simp only [] at h
    by_cases hb : NftRow.Blank env row
    · have hb' : env.trim row.contractValue = "" ∧ env.trim row.tokenValue = "" := hb
      rw [if_pos hb'] at h
      have hnb : nonBlankRows env (row :: rows) = nonBlankRows env rows := by
        simp [nonBlankRows, List.filter_cons, hb]
      rw [hnb]
      exact ih inputs h
    · have hb' : ¬ (env.trim row.contractValue = "" ∧ env.trim row.tokenValue = "") := hb
      rw [if_neg hb'] at h
      have hnb : nonBlankRows env (row :: rows) = row :: nonBlankRows env rows := by
        simp [nonBlankRows, List.filter_cons, hb]
      rw [hnb]
      split_ifs at h with ha ht
      cases hbn : env.bigNumberFrom (env.trim row.tokenValue) with
      | error err => rw [hbn] at h; cases h
      | ok tokenId =>
        rw [hbn] at h
        cases hrest : readNftInputs env rows with
        | error err => rw [hrest] at h; cases h
        | ok rest =>
          rw [hrest] at h
          simp only [Except.ok.injEq] at h
          subst h
          obtain ⟨h1, h2, h3⟩ := ih rest hrest
          refine ⟨?_, List.Forall₂.cons hbn h2, ?_⟩
          · simp only [List.map_cons, h1]
          · intro r hr
            rcases List.mem_cons.1 hr with hr | hr
            · subst hr
              refine ⟨?_, ht⟩
              simpa using ha
            · exact h3 r hr

/-- A form that passes validation satisfies the conditions of the spec. -/
theorem validateForm_ok (env : Env) (form : Form) (offers requests : NftInputs) (seconds : ℤ)
    (h : validateForm env form = .ok (offers, requests, seconds)) : FormAccepted env form := by
  unfold validateForm at h
  cases ho : readNftInputs env form.offerNFTs with
  | error err => rw [ho] at h; cases h
  | ok o =>
    rw [ho] at h
    cases hr : readNftInputs env form.requestNFTs with
    | error err => rw [hr] at h; cases h
    | ok q =>
      rw [hr] at h
      simp only [] at h
      split_ifs at h with hlen
      cases hp : env.parseInt form.durationHours with
      | none => rw [hp] at h; cases h
      | some hours =>
        rw [hp] at h
        simp only [] at h
        split_ifs at h with hpos
        obtain ⟨ho1, _, ho3⟩ := readNftInputs_ok env _ o ho
        obtain ⟨hr1, _, hr3⟩ := readNftInputs_ok env _ q hr
        rw [not_or] at hlen
        refine ⟨?_, ?_, ho3, hr3, hours, hp, not_le.1 hpos⟩
        · intro hnil
          apply hlen.1
          rw [ho1, hnil]
          rfl
        · intro hnil
          apply hlen.2
          rw [hr1, hnil]
          rfl

/-- In a connected session a validation failure goes straight to the `catch` block. -/
theorem handleCreateOffer_of_validateForm_error (cfg : AppConfig) (env : Env) (w : World)
    (form : Form) (s : State) (err : EthersError) (hc : s.contract ≠ none)
    (h : validateForm env form = .error err) :
    handleCreateOffer cfg env w form s = createFailed s [] [] err := by
  unfold handleCreateOffer
  cases hcon : s.contract with
  | none => exact absurd hcon hc
  | some c => simp only [h]

/-- C11: in a connected session, `handleCreateOffer` issues a create call only if each
side has a non-blank row, every non-blank row has a well-formed address and a non-empty
token id, and the duration parses to a positive number of hours; when these conditions
fail, validation raises an error, the handler shows it as an error toast and issues no
call at all; and a successful `readNftInputs` returns two lists of equal length: the
normalised addresses and the token ids of the non-blank rows, in row order. -/
theorem handleCreateOffer_validates (cfg : AppConfig) (env : Env) (w : World) (form : Form)
    (s : State) (hc : s.contract ≠ none) :
    ((∃ args : CreateArgs,
        Call.createMultiSwapOffer args ∈ (handleCreateOffer cfg env w form s).calls) →
      FormAccepted env form) ∧
    (¬ FormAccepted env form →
      ∃ err : EthersError, validateForm env form = .error err ∧
        handleCreateOffer cfg env w form s = createFailed s [] [] err ∧
        (handleCreateOffer cfg env w form s).calls = [] ∧
        (handleCreateOffer cfg env w form s).toasts =
          [{ message := messageOr err "Failed to create offer.", type := .error }]) ∧
    (∀ (rows : List NftRow) (inputs : NftInputs), readNftInputs env rows = .ok inputs →
      inputs.contracts.length = inputs.tokenIds.length ∧
      inputs.contracts =
        (nonBlankRows env rows).map (fun row => env.getAddress (env.trim row.contractValue)) ∧
      List.Forall₂ (fun row tokenId => env.bigNumberFrom (env.trim row.tokenValue) = .ok tokenId)
        (nonBlankRows env rows) inputs.tokenIds) := by
  have hfail : ∀ err : EthersError, validateForm env form = .error err →
      handleCreateOffer cfg env w form s = createFailed s [] [] err :=
    fun err h => handleCreateOffer_of_validateForm_error cfg env w form s err hc h
  refine ⟨?_, ?_, ?_⟩
  · rintro ⟨args, hmem⟩
    cases hv : validateForm env form with
    | error err =>
      rw [hfail err hv] at hmem
      simp [createFailed] at hmem
    | ok res =>
      obtain ⟨offers, requests, seconds⟩ := res
      exact validateForm_ok env form offers requests seconds hv
  · intro hna
    cases hv : validateForm env form with
    | error err =>
      refine ⟨err, rfl, hfail err hv, ?_, ?_⟩ <;> rw [hfail err hv] <;> rfl
    | ok res =>
      obtain ⟨offers, requests, seconds⟩ := res
      exact absurd (validateForm_ok env form offers requests seconds hv) hna
  · intro rows inputs h
    obtain ⟨h1, h2, _⟩ := readNftInputs_ok env rows inputs h
    refine ⟨?_, h1, h2⟩
    rw [h1, List.length_map]
    exact h2.length_eq

/-- C11 on the sample session: the sample form is accepted and submitted; with duration
`"0"` the form is rejected and nothing is called. -/
theorem handleCreateOffer_validates_sample :
    sampleConnected.contract ≠ none ∧
    FormAccepted sampleEnv sampleForm ∧
    (∃ args : CreateArgs,
      Call.createMultiSwapOffer args ∈
        (handleCreateOffer sampleConfig sampleEnv (sampleWorld 2) sampleForm
          sampleConnected).calls) ∧
    ¬ FormAccepted sampleEnv { sampleForm with durationHours := "0" } ∧
    (handleCreateOffer sampleConfig sampleEnv (sampleWorld 2)
      { sampleForm with durationHours := "0" } sampleConnected).calls = [] := by
  have hc : sampleConnected.contract ≠ none := by decide
  have hmem : ∃ args : CreateArgs,
      Call.createMultiSwapOffer args ∈
        (handleCreateOffer sampleConfig sampleEnv (sampleWorld 2) sampleForm
          sampleConnected).calls :=
    ⟨{ offerContracts := ["0xN1"], offerTokenIds := [7], requestContracts := ["0xN2"],
       requestTokenIds := [7], durationSeconds := 86400, value := 2 }, by decide⟩
  have hbad : ¬ FormAccepted sampleEnv { sampleForm with durationHours := "0" } := by
    rintro ⟨_, _, _, _, hours, hp, _⟩
    revert hp
    simp [sampleEnv, sampleForm]
  have h := handleCreateOffer_validates sampleConfig sampleEnv (sampleWorld 2)
    { sampleForm with durationHours := "0" } sampleConnected hc
  obtain ⟨err, _, _, hcalls, _⟩ := h.2.1 hbad
  exact ⟨hc,
    (handleCreateOffer_validates sampleConfig sampleEnv (sampleWorld 2) sampleForm
      sampleConnected hc).1 hmem, hmem, hbad, hcalls⟩

/-- An Accept button only appears on the card of an offer that is not the viewer's. -/
theorem createOfferCard_accept_not_mine (env : Env) (s : State) (offer : Offer) (b : Button)
    (hb : b ∈ (createOfferCard env s offer).actions) (hacc : ∃ id, b.onClick = .acceptOffer id) :
    ¬ ∃ account, s.account = some account ∧ account ≠ "" ∧
      env.toLowerCase offer.creator = env.toLowerCase account := by
  rw [← isMine_iff]
  rw [createOfferCard_actions_eq] at hb
  obtain ⟨id, hid⟩ := hacc
  intro hm
  rw [if_pos hm, List.mem_singleton] at hb
  subst hb
  cases he : offer.isExpired <;> simp [he] at hid

/-- The content written to the offers list by a refresh whose queries all succeed. -/
theorem refreshOffers_offersList (cfg : AppConfig) (env : Env) (w : World) (fromButton : Bool)
    (s : State) (logs : List ℕ) (fetched : List Offer)
    (hrc : s.readContract ≠ none) (hr : s.refreshing = false)
    (hq : w.queryFilter (startBlock cfg env) = .ok logs)
    (hf : fetchOffers w 0 logs = .ok fetched) :
    (refreshOffers cfg env w fromButton s).offersList =
      some (renderOffers env
        { s with offers := sortOffers (fetched.filter (fun offer => offer.isActive)) }) := by
  unfold refreshOffers
  cases hc : s.readContract with
  | none => exact absurd hc hrc
  | some c =>
    simp only [hr, hq, hf]
    rfl

/-- C16 fails on a ledger with two active offers, the first expired: both are fetched,
the displayed list holds both cards, the expired one first with the Expired badge and a
disabled Accept button, so the displayed offers are not all unexpired. -/
theorem refreshOffers_lists_expired_offer :
    fetchOffers sampleExpiredWorld 0 [1, 2] =
      .ok [{ offerId := 1, creator := "0xB2", recipient := addressZero,
             tokenA := [{ contract := "0xN1", tokenId := 1 }],
             tokenB := [{ contract := "0xN2", tokenId := 2 }],
             expiresAt := 100, isActive := true, isExpired := true },
           { offerId := 2, creator := "0xB2", recipient := addressZero,
             tokenA := [{ contract := "0xN1", tokenId := 1 }],
             tokenB := [{ contract := "0xN2", tokenId := 2 }],
             expiresAt := 300, isActive := true, isExpired := false }] ∧
    (refreshOffers sampleConfig sampleEnv sampleExpiredWorld false sampleSession).offersList =
      some (.cards
        [{ offerId := 1, badges := [.expired], creator := "0xB2",
           tokenA := [{ contract := "0xN1", tokenId := 1 }],
           tokenB := [{ contract := "0xN2", tokenId := 2 }], expiresAt := 100,
           actions := [{ className := "primary", textContent := "Accept Offer", disabled := true,
                         onClick := .acceptOffer 1 }] },
         { offerId := 2, badges := [], creator := "0xB2",
           tokenA := [{ contract := "0xN1", tokenId := 1 }],
           tokenB := [{ contract := "0xN2", tokenId := 2 }], expiresAt := 300,
           actions := [{ className := "primary", textContent := "Accept Offer", disabled := false,
                         onClick := .acceptOffer 2 }] }]) ∧
    ¬ ∀ offer ∈
        (refreshOffers sampleConfig sampleEnv sampleExpiredWorld false sampleSession).state.offers,
      offer.isExpired = false := by
  refine ⟨rfl, by decide, ?_⟩
  decide

/-- C16 as amended: when the ledger returns exactly two offers of which exactly one has
its active flag set, the list kept and displayed after `refreshOffers` holds only that
active offer, and an Accept button on its card implies that the creator is not the
current account. -/
theorem refreshOffers_two_offers (cfg : AppConfig) (env : Env) (w : World) (fromButton : Bool)
    (s : State) (id1 id2 : ℕ) (o1 o2 : Offer)
    (hrc : s.readContract ≠ none) (hr : s.refreshing = false)
    (hq : w.queryFilter (startBlock cfg env) = .ok [id1, id2])
    (hf : fetchOffers w 0 [id1, id2] = .ok [o1, o2])
    (hact : o1.isActive ≠ o2.isActive) :
    (refreshOffers cfg env w fromButton s).state.offers = [if o1.isActive then o1 else o2] ∧
    (refreshOffers cfg env w fromButton s).offersList =
      some (.cards [createOfferCard env s (if o1.isActive then o1 else o2)]) ∧
    ∀ b ∈ (createOfferCard env s (if o1.isActive then o1 else o2)).actions,
      (∃ id, b.onClick = .acceptOffer id) →
      ¬ ∃ account, s.account = some account ∧ account ≠ "" ∧
        env.toLowerCase (createOfferCard env s (if o1.isActive then o1 else o2)).creator =
          env.toLowerCase account := by
  have hfilter : [o1, o2].filter (fun offer => offer.isActive) =
      [if o1.isActive then o1 else o2] := by
    cases h1 : o1.isActive <;> cases h2 : o2.isActive <;> simp_all
  have hsort : sortOffers ([o1, o2].filter (fun offer => offer.isActive)) =
      [if o1.isActive then o1 else o2] := by
    rw [hfilter]
    rfl
  refine ⟨?_, ?_, ?_⟩
  · rw [refreshOffers_offers cfg env w fromButton s _ _ hrc hr hq hf, hsort]
  · rw [refreshOffers_offersList cfg env w fromButton s _ _ hrc hr hq hf, hsort]
    rfl
  · intro b hb hacc
    exact createOfferCard_accept_not_mine env s _ b hb hacc

/-- C16 as amended, on a ledger with active offer 1 and inactive offer 2. -/
theorem refreshOffers_two_offers_sample :
    (refreshOffers sampleConfig sampleEnv
        { sampleWorld 2 with queryFilter := fun _ => .ok [1, 2] } false
        sampleSession).state.offers.map (fun offer => offer.offerId) = [1] :=
  congrArg (List.map (fun offer => offer.offerId))
    (refreshOffers_two_offers sampleConfig sampleEnv
      { sampleWorld 2 with queryFilter := fun _ => .ok [1, 2] } false sampleSession 1 2 _ _
      (by decide) rfl rfl rfl (by decide)).1

/-- C17 fails on a connected session: after an empty account list the chain id is still
`43113`, not the initial value; and a following non-empty list sets the account but
leaves the contract handle unbound. -/
theorem accountsChanged_keeps_chainId :
    (accountsChanged sampleConfig (some []) sampleSession).chainId = some 43113 ∧
    (state sampleConfig).chainId = none ∧
    (accountsChanged sampleConfig (some []) sampleSession).chainId ≠
      (state sampleConfig).chainId ∧
    (accountsChanged sampleConfig (some ["0xB2"])
      (accountsChanged sampleConfig (some []) sampleSession)).account = some "0xB2" ∧
    (accountsChanged sampleConfig (some ["0xB2"])
      (accountsChanged sampleConfig (some []) sampleSession)).contract = none := by
  decide

/-- C17 as amended: a missing and an empty account list act alike and leave `account`,
`provider`, `signer` and `contract` at `null`, their values in the initial state; a
non-empty list sets `account` to its first entry, keeps the provider, rebinds signer and
contract handle to the provider when one is held, and leaves them as they were
otherwise. -/
theorem accountsChanged_spec (cfg : AppConfig) (s : State) (first : String)
    (rest : List String) :
    accountsChanged cfg none s = accountsChanged cfg (some []) s ∧
    ((accountsChanged cfg (some []) s).account = none ∧
      (accountsChanged cfg (some []) s).provider = none ∧
      (accountsChanged cfg (some []) s).signer = none ∧
      (accountsChanged cfg (some []) s).contract = none) ∧
    ((accountsChanged cfg (some []) s).account = (state cfg).account ∧
      (accountsChanged cfg (some []) s).provider = (state cfg).provider ∧
      (accountsChanged cfg (some []) s).signer = (state cfg).signer ∧
      (accountsChanged cfg (some []) s).contract = (state cfg).contract) ∧
    (accountsChanged cfg (some (first :: rest)) s).account = some first ∧
    (accountsChanged cfg (some (first :: rest)) s).provider = s.provider ∧
    (∀ provider : Provider, s.provider = some provider →
      (accountsChanged cfg (some (first :: rest)) s).signer = some { provider := provider } ∧
      (accountsChanged cfg (some (first :: rest)) s).contract =
        some { address := cfg.contractAddress, abi := s.abi,
               runner := .signer { provider := provider } }) ∧
    (s.provider = none →
      (accountsChanged cfg (some (first :: rest)) s).signer = s.signer ∧
      (accountsChanged cfg (some (first :: rest)) s).contract = s.contract) := by
  refine ⟨rfl, ⟨rfl, rfl, rfl, rfl⟩, ⟨rfl, rfl, rfl, rfl⟩, ?_, ?_, ?_, ?_⟩
  · unfold accountsChanged
    cases s.provider <;> rfl
  · unfold accountsChanged
    cases hp : s.provider <;> simp [hp]
  · intro provider hp
    unfold accountsChanged
    simp [hp]
  · intro hp
    unfold accountsChanged
    simp [hp]

/-- C17 as amended, on the sample session. -/
theorem accountsChanged_spec_sample :
    sampleSession.provider = some { id := 1 } ∧
    (accountsChanged sampleConfig (some ["0xB2", "0xA1"]) sampleSession).account = some "0xB2" ∧
    (accountsChanged sampleConfig (some ["0xB2", "0xA1"]) sampleSession).contract =
      some { address := "0xC0", abi := none, runner := .signer { provider := { id := 1 } } } ∧
    (accountsChanged sampleConfig none sampleSession).contract = none :=
  ⟨rfl, (accountsChanged_spec sampleConfig sampleSession "0xB2" ["0xA1"]).2.2.2.1,
    ((accountsChanged_spec sampleConfig sampleSession "0xB2" ["0xA1"]).2.2.2.2.2.1
      { id := 1 } rfl).2,
    (accountsChanged_spec sampleConfig sampleSession "0xB2" ["0xA1"]).1 ▸
      (accountsChanged_spec sampleConfig sampleSession "0xB2" ["0xA1"]).2.1.2.2.2⟩

end Client

end W3bscrow
